import Mathlib

/-!
# Verification of the EIC content-aggregation pipeline

A shallow embedding, in Lean 4, of the deduplication / identity subsystem,
the persistent stores, the pipeline orchestrator and the GitHub-discussion
reconciler of the `eic-hr-analytics` repository (`scripts/normalize.py`,
`scripts/store.py`, `scripts/llm_client.py`, `scripts/run_daily.py`,
`scripts/github_discussions.py`), together with theorems settling the
specification claims about those components.

Modelling conventions:
* Python `str` values are Lean `String`s; where the CPython library works on
  UTF-8 bytes (URL quoting/unquoting, hashing) we work on `List Nat` byte
  lists obtained by UTF-8 encoding.
* Machine-level arithmetic (SHA-256) is `Nat` arithmetic with explicit
  `% 2^32` reductions.
* Functions that can raise in Python return `Option` here; callers that
  catch the exception match on `none`.
* The ambient clock (`get_jst_now`) is passed explicitly as a `now : String`
  argument (its ISO format), since the claims never depend on actual time.
-/

set_option linter.unusedVariables false

namespace EIC

/-! ## Small string helpers (models of the Python `str` methods used) -/

/-- ASCII lowercase of one character; models Python `str.lower` on the ASCII
range (the URLs and keys handled by the claims are ASCII). -/
def asciiLowerChar (c : Char) : Char :=
  if 'A' ≤ c ∧ c ≤ 'Z' then Char.ofNat (c.toNat + 32) else c

/-- ASCII lowercase of a string. -/
def asciiLower (s : String) : String := String.mk (s.data.map asciiLowerChar)

/-- Python whitespace characters recognised by `str.strip` (ASCII subset). -/
def isPyWs (c : Char) : Bool := c = ' ' ∨ c = '\t' ∨ c = '\n' ∨ c = '\r'

/-- Models Python `str.strip()` (ASCII whitespace). -/
def pyStrip (s : String) : String :=
  String.mk (((s.data.dropWhile isPyWs).reverse.dropWhile isPyWs).reverse)

/-- Models Python `sep.join(xs)`. -/
def pyJoin (sep : String) : List String → String
  | [] => ""
  | [x] => x
  | x :: y :: rest => x ++ sep ++ pyJoin sep (y :: rest)

/-- Boolean prefix test on character lists. -/
def isPrefixB : List Char → List Char → Bool
  | [], _ => true
  | _ :: _, [] => false
  | a :: as, b :: bs => a = b && isPrefixB as bs

/-- Boolean infix (substring) test on character lists. -/
def isInfixB (needle : List Char) : List Char → Bool
  | [] => isPrefixB needle []
  | c :: rest => isPrefixB needle (c :: rest) || isInfixB needle rest

/-- Models the Python substring test `needle in haystack`. -/
def containsSub (needle haystack : String) : Bool :=
  isInfixB needle.data haystack.data

/-- Split a character list on a separator character, keeping empty pieces;
models Python `str.split(sep)` for a one-character separator. -/
def splitOnChar (c : Char) : List Char → List (List Char)
  | [] => [[]]
  | x :: rest =>
    if x = c then [] :: splitOnChar c rest
    else
      match splitOnChar c rest with
      | [] => [[x]]
      | h :: t => (x :: h) :: t

/-- UTF-8 encoding of one character as a byte list. -/
def utf8EncodeChar (c : Char) : List Nat :=
  let n := c.toNat
  if n < 0x80 then [n]
  else if n < 0x800 then
    [0xC0 ||| (n >>> 6), 0x80 ||| (n &&& 0x3F)]
  else if n < 0x10000 then
    [0xE0 ||| (n >>> 12), 0x80 ||| ((n >>> 6) &&& 0x3F), 0x80 ||| (n &&& 0x3F)]
  else
    [0xF0 ||| (n >>> 18), 0x80 ||| ((n >>> 12) &&& 0x3F),
     0x80 ||| ((n >>> 6) &&& 0x3F), 0x80 ||| (n &&& 0x3F)]

/-- UTF-8 encoding of a string as a byte list; models Python
`s.encode("utf-8")`. -/
def strBytes (s : String) : List Nat := s.data.flatMap utf8EncodeChar

/-- Models Python `s.startswith(pre)` (character-level, kernel-reducible). -/
def strStartsWith (s pre : String) : Bool := isPrefixB pre.data s.data

/-- Models Python `s.endswith(suf)` for a one-character suffix. -/
def strEndsWithChar (s : String) (c : Char) : Bool := s.data.getLast? = some c

/-- Models Python slicing `s[n:]`. -/
def strDrop (s : String) (n : Nat) : String := String.mk (s.data.drop n)

/-- Models Python slicing `s[:n]`. -/
def strTake (s : String) (n : Nat) : String := String.mk (s.data.take n)

/-- Value of an ASCII hex digit. -/
def hexVal? (c : Char) : Option Nat :=
  if '0' ≤ c ∧ c ≤ '9' then some (c.toNat - '0'.toNat)
  else if 'a' ≤ c ∧ c ≤ 'f' then some (c.toNat - 'a'.toNat + 10)
  else if 'A' ≤ c ∧ c ≤ 'F' then some (c.toNat - 'A'.toNat + 10)
  else none

/-! ## Model of `urllib.parse.urlparse`

`scripts/normalize.py` builds on the CPython URL parser.  The model below
follows `urlsplit`/`urlparse` from `urllib/parse.py`: removal of the unsafe
bytes `\t\r\n`, scheme detection (first `:` with only scheme characters in
front of it and a leading letter, lowercased), netloc detection after `//` up
to the next `/`, `?` or `#`, the "Invalid IPv6 URL" `ValueError` on an
unmatched bracket in the netloc (modelled as `none`), fragment split at the
first `#`, query split at the first `?`, and the `;params` split on the last
path segment.  The NFKC netloc check of newer CPython is not modelled. -/

/-- The parse result; fields as in Python's `ParseResult`. -/
structure UrlParts where
  scheme : String
  netloc : String
  path : String
  params : String
  query : String
  fragment : String
deriving Repr, DecidableEq

/-- Characters allowed in a URL scheme (`scheme_chars` in `urllib.parse`). -/
def isSchemeChar (c : Char) : Bool :=
  c.isAlpha || c.isDigit || c = '+' || c = '-' || c = '.'

/-- Split off the scheme, as in `urlsplit`: the text before the first `:`
must be nonempty, start with a letter and consist of scheme characters;
the scheme is lowercased at split time. -/
def splitScheme (l : List Char) : List Char × List Char :=
  match l.findIdx? (· = ':') with
  | none => ([], l)
  | some i =>
    if 0 < i ∧ (l.take i).all isSchemeChar ∧ (l.headD ' ').isAlpha then
      ((l.take i).map asciiLowerChar, l.drop (i + 1))
    else ([], l)

/-- `_splitnetloc`: the netloc runs until the next `/`, `?` or `#`. -/
def splitNetloc (l : List Char) : List Char × List Char :=
  (l.takeWhile (fun c => ¬(c = '/' ∨ c = '?' ∨ c = '#')),
   l.dropWhile (fun c => ¬(c = '/' ∨ c = '?' ∨ c = '#')))

/-- Split at the first occurrence of a character, dropping the separator;
`none` in the second component when the character does not occur. -/
def splitOnceChar (c : Char) (l : List Char) : List Char × Option (List Char) :=
  match l.findIdx? (· = c) with
  | none => (l, none)
  | some i => (l.take i, some (l.drop (i + 1)))

/-- Index of the last occurrence of a character. -/
def rfindIdx (c : Char) (l : List Char) : Option Nat :=
  match l.reverse.findIdx? (· = c) with
  | none => none
  | some j => some (l.length - 1 - j)

/-- `_splitparams`: split `;params` off the last path segment. -/
def splitParams (p : List Char) : List Char × List Char :=
  if ';' ∈ p then
    if '/' ∈ p then
      let s := (rfindIdx '/' p).getD 0
      match (p.drop s).findIdx? (· = ';') with
      | none => (p, [])
      | some j => (p.take (s + j), p.drop (s + j + 1))
    else
      match p.findIdx? (· = ';') with
      | none => (p, [])
      | some i => (p.take i, p.drop (i + 1))
  else (p, [])

/-- Model of `urllib.parse.urlparse`.  `none` models the `ValueError`
raised on an unmatched IPv6 bracket in the netloc. -/
def urlparseE (url : String) : Option UrlParts :=
  let l := url.data.filter (fun c => ¬(c = '\t' ∨ c = '\r' ∨ c = '\n'))
  let sr := splitScheme l
  let scheme := sr.1
  let rest0 := sr.2
  let nr :=
    if rest0.take 2 = ['/', '/'] then splitNetloc (rest0.drop 2)
    else ([], rest0)
  let netloc := nr.1
  let rest1 := nr.2
  if ('[' ∈ netloc ∧ ']' ∉ netloc) ∨ (']' ∈ netloc ∧ '[' ∉ netloc) then none
  else
    let fr := splitOnceChar '#' rest1
    let qr := splitOnceChar '?' fr.1
    let pp := splitParams qr.1
    some { scheme := String.mk scheme
           netloc := String.mk netloc
           path := String.mk pp.1
           params := String.mk pp.2
           query := String.mk (qr.2.getD [])
           fragment := String.mk (fr.2.getD []) }

/-! ## Model of the query-string pipeline

`normalize_url` runs `parse_qs(query, keep_blank_values=False)`, filters the
tracking keys, sorts the remaining items and re-encodes them with
`urlencode(..., doseq=True)`.  Decoded names and values are kept as UTF-8
byte lists (`List Nat`); the CPython decode/re-encode roundtrip through
`str` is the identity on the byte level for valid UTF-8 input, which is the
modelled behaviour. -/

/-- Percent-and-plus decoding into bytes; models
`unquote(s.replace('+', ' '))` as performed inside `parse_qsl`. -/
def unquotePlusBytes : List Char → List Nat
  | [] => []
  | '%' :: h1 :: h2 :: rest =>
    match hexVal? h1, hexVal? h2 with
    | some a, some b => (a * 16 + b) :: unquotePlusBytes rest
    | _, _ => utf8EncodeChar '%' ++ unquotePlusBytes (h1 :: h2 :: rest)
  | '+' :: rest => 0x20 :: unquotePlusBytes rest
  | c :: rest => utf8EncodeChar c ++ unquotePlusBytes rest

/-- One field of a query string, as handled by one iteration of
`parse_qsl(qs, keep_blank_values=False)`: empty fields, fields without `=`
and fields with an empty value are all skipped. -/
def parseField (f : List Char) : Option (List Nat × List Nat) :=
  if f = [] then none
  else
    match f.findIdx? (· = '=') with
    | none => none
    | some i =>
      let value := f.drop (i + 1)
      if value = [] then none
      else some (unquotePlusBytes (f.take i), unquotePlusBytes value)

/-- Model of `parse_qsl(qs, keep_blank_values=False)` (separator `&`). -/
def parse_qsl (q : String) : List (List Nat × List Nat) :=
  (splitOnChar '&' q.data).filterMap parseField

/-- Structural worker for `firstSeenKeys`; the fuel is an upper bound on the
list length, so the recursion always terminates within it. -/
def firstSeenKeysGo : Nat → List (List Nat) → List (List Nat)
  | _, [] => []
  | 0, _ => []
  | fuel + 1, k :: rest => k :: firstSeenKeysGo fuel (rest.filter (· ≠ k))

/-- Keys in first-seen order, duplicates removed; models the key order of a
Python `dict` built by insertion. -/
def firstSeenKeys (l : List (List Nat)) : List (List Nat) :=
  firstSeenKeysGo l.length l

/-- All values associated with a key, in order of appearance. -/
def valuesFor (k : List Nat) (ps : List (List Nat × List Nat)) : List (List Nat) :=
  ps.filterMap (fun kv => if kv.1 = k then some kv.2 else none)

/-- Grouping of a pair list into a key-ordered association list; the
extensional behaviour of building `dict` of lists inside `parse_qs`. -/
def groupPairs (ps : List (List Nat × List Nat)) : List (List Nat × List (List Nat)) :=
  (firstSeenKeys (ps.map Prod.fst)).map (fun k => (k, valuesFor k ps))

/-- Model of `parse_qs(qs, keep_blank_values=False)`. -/
def parse_qs (q : String) : List (List Nat × List (List Nat)) :=
  groupPairs (parse_qsl q)

/-- ASCII lowercase on bytes; models `str.lower` applied to a decoded key. -/
def lowerBytes (bs : List Nat) : List Nat :=
  bs.map (fun b => if 65 ≤ b ∧ b ≤ 90 then b + 32 else b)

/-- The `TRACKING_PARAMS` denylist from `scripts/normalize.py`, as UTF-8
byte lists. -/
def TRACKING_PARAMS : List (List Nat) :=
  ["utm_source", "utm_medium", "utm_campaign", "utm_term", "utm_content",
   "utm_id", "fbclid", "gclid", "gclsrc", "dclid", "msclkid", "ref",
   "source", "mc_cid", "mc_eid", "_ga", "_gl", "yclid", "twclid"].map strBytes

/-- Is a (decoded, lowercased) key off the tracking denylist? -/
def isNonTracking (k : List Nat) : Bool :=
  ¬ TRACKING_PARAMS.contains (lowerBytes k)

/-- The filtering loop of `normalize_url`: keep only items whose lowercased
key is not a tracking parameter. -/
def filterTracking (g : List (List Nat × List (List Nat))) :
    List (List Nat × List (List Nat)) :=
  g.filter (fun kv => isNonTracking kv.1)

/-- The query parameters that survive `normalize_url`'s filtering: the
parsed non-blank pairs whose key is not a tracking parameter. -/
def remainingPairs (q : String) : List (List Nat × List Nat) :=
  (parse_qsl q).filter (fun kv => isNonTracking kv.1)

/-- The order in which `sorted(filtered_params.items())` arranges items:
lexicographic on the key, then on the value list (Python tuple order). -/
def qItemLe (a b : List Nat × List (List Nat)) : Prop :=
  a.1 < b.1 ∨ (a.1 = b.1 ∧ a.2 ≤ b.2)

instance : DecidableRel qItemLe := fun a b => by
  unfold qItemLe; infer_instance

/-- Model of Python `sorted` on the filtered items (the order is total and
antisymmetric, so any sorting algorithm computes the same list). -/
def pySorted (l : List (List Nat × List (List Nat)))
    : List (List Nat × List (List Nat)) :=
  l.insertionSort qItemLe

/-- Is a byte always safe under `urllib.parse.quote` (letters, digits,
`_.-~`)? -/
def isAlwaysSafeByte (b : Nat) : Bool :=
  (48 ≤ b ∧ b ≤ 57) ∨ (65 ≤ b ∧ b ≤ 90) ∨ (97 ≤ b ∧ b ≤ 122) ∨
    b = 95 ∨ b = 46 ∨ b = 45 ∨ b = 126

/-- Uppercase hex digit. -/
def upperHexDigit (n : Nat) : Char :=
  match n % 16 with
  | 0 => '0' | 1 => '1' | 2 => '2' | 3 => '3' | 4 => '4'
  | 5 => '5' | 6 => '6' | 7 => '7' | 8 => '8' | 9 => '9'
  | 10 => 'A' | 11 => 'B' | 12 => 'C' | 13 => 'D' | 14 => 'E'
  | _ => 'F'

/-- Per-byte behaviour of `quote_plus` with `safe=''`. -/
def quotePlusByte (b : Nat) : List Char :=
  if b = 32 then ['+']
  else if isAlwaysSafeByte b then [Char.ofNat b]
  else ['%', upperHexDigit (b / 16), upperHexDigit b]

/-- Model of `urllib.parse.quote_plus` on a decoded (byte-level) text. -/
def quotePlus (bs : List Nat) : String := String.mk (bs.flatMap quotePlusByte)

/-- Model of `urlencode(items, doseq=True)`: one `key=value` field per value
of every item, joined with `&`. -/
def urlencodeSorted (items : List (List Nat × List (List Nat))) : String :=
  pyJoin "&" (items.flatMap (fun kv => kv.2.map (fun v => quotePlus kv.1 ++ "=" ++ quotePlus v)))

/-! ## Model of `urlunparse` and `normalize_url` -/

/-- Model of `urllib.parse.urlunsplit`. -/
def urlunsplit (scheme netloc path query fragment : String) : String :=
  let url1 :=
    if netloc ≠ "" ∨ (path ≠ "" ∧ path.data.take 2 = ['/', '/']) then
      "//" ++ netloc ++
        (if path ≠ "" ∧ path.data.take 1 ≠ ['/'] then "/" ++ path else path)
    else path
  let url2 := if scheme ≠ "" then scheme ++ ":" ++ url1 else url1
  let url3 := if query ≠ "" then url2 ++ "?" ++ query else url2
  if fragment ≠ "" then url3 ++ "#" ++ fragment else url3

/-- Model of `urllib.parse.urlunparse`. -/
def urlunparse (scheme netloc path params query fragment : String) : String :=
  urlunsplit scheme netloc (if params ≠ "" then path ++ ";" ++ params else path)
    query fragment

/-- Scheme normalization step of `normalize_url`: lowercase. -/
def normScheme (s : String) : String := asciiLower s

/-- Netloc normalization step of `normalize_url`: lowercase, then strip one
leading `www.`. -/
def normNetloc (n : String) : String :=
  let n0 := asciiLower n
  if strStartsWith n0 "www." then strDrop n0 4 else n0

/-- Models Python `path.rstrip("/")`. -/
def stripTrailingSlashes (p : String) : String :=
  String.mk (p.data.reverse.dropWhile (· = '/')).reverse

/-- Path normalization step of `normalize_url`: drop trailing slashes except
for the root path, and replace an empty path with `/`. -/
def normPath (p : String) : String :=
  let p1 := if p ≠ "/" ∧ strEndsWithChar p '/' then stripTrailingSlashes p else p
  if p1 = "" then "/" else p1

/-- Query normalization step of `normalize_url`: parse, drop tracking keys,
sort, re-encode (empty when no parameter survives). -/
def normQuery (q : String) : String :=
  let filtered := filterTracking (parse_qs q)
  if filtered ≠ [] then urlencodeSorted (pySorted filtered) else ""

/-- The successful branch of `normalize_url`, operating on a parse result. -/
def normalizeParts (p : UrlParts) : String :=
  urlunparse (normScheme p.scheme) (normNetloc p.netloc) (normPath p.path)
    "" (normQuery p.query) ""

/-- Model of `normalize_url` from `scripts/normalize.py`: on a parse failure
the input is returned unchanged (the caught `ValueError`). -/
def normalize_url (url : String) : String :=
  match urlparseE url with
  | none => url
  | some p => normalizeParts p

/-! ## SHA-256 (model of `hashlib.sha256(...).hexdigest()`)

A byte-level implementation over `Nat` with explicit `% 2^32` reductions,
used by `compute_item_id`. -/

/-- 2^32, the word modulus. -/
def w32 : Nat := 4294967296

/-- Right rotation of a 32-bit word. -/
def rotr32 (x n : Nat) : Nat := ((x >>> n) ||| (x <<< (32 - n))) % w32

/-- The SHA-256 round constants. -/
def sha256K : List Nat :=
  [1116352408, 1899447441, 3049323471, 3921009573, 961987163,
   1508970993, 2453635748, 2870763221, 3624381080, 310598401,
   607225278, 1426881987, 1925078388, 2162078206, 2614888103,
   3248222580, 3835390401, 4022224774, 264347078, 604807628,
   770255983, 1249150122, 1555081692, 1996064986, 2554220882,
   2821834349, 2952996808, 3210313671, 3336571891, 3584528711,
   113926993, 338241895, 666307205, 773529912, 1294757372,
   1396182291, 1695183700, 1986661051, 2177026350, 2456956037,
   2730485921, 2820302411, 3259730800, 3345764771, 3516065817,
   3600352804, 4094571909, 275423344, 430227734, 506948616,
   659060556, 883997877, 958139571, 1322822218, 1537002063,
   1747873779, 1955562222, 2024104815, 2227730452, 2361852424,
   2428436474, 2756734187, 3204031479, 3329325298]

/-- The 8-word hash state. -/
structure Sha256State where
  a : Nat
  b : Nat
  c : Nat
  d : Nat
  e : Nat
  f : Nat
  g : Nat
  h : Nat
deriving Repr, DecidableEq

/-- The SHA-256 initial state. -/
def sha256H0 : Sha256State :=
  ⟨0x6a09e667, 0xbb67ae85, 0x3c6ef372, 0xa54ff53a,
   0x510e527f, 0x9b05688c, 0x1f83d9ab, 0x5be0cd19⟩

/-- SHA-256 message padding: `0x80`, zeros to 56 mod 64, then 8 length
bytes (bit length, big-endian). -/
def sha256Pad (msg : List Nat) : List Nat :=
  let len := msg.length
  let bitLen := len * 8
  let zeros := (119 - len % 64) % 64
  msg ++ [0x80] ++ List.replicate zeros 0 ++
    [bitLen >>> 56 % 256, bitLen >>> 48 % 256, bitLen >>> 40 % 256,
     bitLen >>> 32 % 256, bitLen >>> 24 % 256, bitLen >>> 16 % 256,
     bitLen >>> 8 % 256, bitLen % 256]

/-- Structural worker for `toBlocks` (the fuel bounds the number of
blocks). -/
def toBlocksGo : Nat → List Nat → List (List Nat)
  | _, [] => []
  | 0, _ => []
  | fuel + 1, b :: rest => ((b :: rest).take 64) :: toBlocksGo fuel ((b :: rest).drop 64)

/-- Split a byte list into 64-byte blocks. -/
def toBlocks (l : List Nat) : List (List Nat) := toBlocksGo l.length l

/-- First 16 schedule words of a block (big-endian 32-bit words). -/
def initW (block : List Nat) : List Nat :=
  (List.range 16).map (fun i =>
    block.getD (4 * i) 0 * 16777216 + block.getD (4 * i + 1) 0 * 65536 +
      block.getD (4 * i + 2) 0 * 256 + block.getD (4 * i + 3) 0)

/-- Schedule extension step functions. -/
def ssig0 (x : Nat) : Nat := (rotr32 x 7) ^^^ (rotr32 x 18) ^^^ (x >>> 3)

/-- Second small sigma. -/
def ssig1 (x : Nat) : Nat := (rotr32 x 17) ^^^ (rotr32 x 19) ^^^ (x >>> 10)

/-- Extend the schedule by `n` words. -/
def extendW : List Nat → Nat → List Nat
  | acc, 0 => acc
  | acc, n + 1 =>
    let len := acc.length
    extendW (acc ++ [(ssig1 (acc.getD (len - 2) 0) + acc.getD (len - 7) 0 +
      ssig0 (acc.getD (len - 15) 0) + acc.getD (len - 16) 0) % w32]) n

/-- One SHA-256 round. -/
def sha256Round (s : Sha256State) (kw : Nat × Nat) : Sha256State :=
  let S1 := (rotr32 s.e 6) ^^^ (rotr32 s.e 11) ^^^ (rotr32 s.e 25)
  let ch := (s.e &&& s.f) ^^^ ((w32 - 1 - s.e) &&& s.g)
  let t1 := (s.h + S1 + ch + kw.1 + kw.2) % w32
  let S0 := (rotr32 s.a 2) ^^^ (rotr32 s.a 13) ^^^ (rotr32 s.a 22)
  let maj := (s.a &&& s.b) ^^^ (s.a &&& s.c) ^^^ (s.b &&& s.c)
  let t2 := (S0 + maj) % w32
  ⟨(t1 + t2) % w32, s.a, s.b, s.c, (s.d + t1) % w32, s.e, s.f, s.g⟩

/-- Compress one 64-byte block into the state. -/
def sha256Block (s : Sha256State) (block : List Nat) : Sha256State :=
  let w := extendW (initW block) 48
  let r := (sha256K.zip w).foldl sha256Round s
  ⟨(s.a + r.a) % w32, (s.b + r.b) % w32, (s.c + r.c) % w32, (s.d + r.d) % w32,
   (s.e + r.e) % w32, (s.f + r.f) % w32, (s.g + r.g) % w32, (s.h + r.h) % w32⟩

/-- SHA-256 of a byte list, as the final 8-word state. -/
def sha256 (msg : List Nat) : Sha256State :=
  (toBlocks (sha256Pad msg)).foldl sha256Block sha256H0

/-- Lowercase hex digit. -/
def lowerHexDigit (n : Nat) : Char :=
  match n % 16 with
  | 0 => '0' | 1 => '1' | 2 => '2' | 3 => '3' | 4 => '4'
  | 5 => '5' | 6 => '6' | 7 => '7' | 8 => '8' | 9 => '9'
  | 10 => 'a' | 11 => 'b' | 12 => 'c' | 13 => 'd' | 14 => 'e'
  | _ => 'f'

/-- The 8 lowercase hex characters of one 32-bit word. -/
def wordHex (x : Nat) : List Char :=
  [lowerHexDigit (x >>> 28), lowerHexDigit (x >>> 24), lowerHexDigit (x >>> 20),
   lowerHexDigit (x >>> 16), lowerHexDigit (x >>> 12), lowerHexDigit (x >>> 8),
   lowerHexDigit (x >>> 4), lowerHexDigit x]

/-- Model of `hashlib.sha256(s.encode("utf-8")).hexdigest()`. -/
def sha256Hexdigest (s : String) : String :=
  let st := sha256 (strBytes s)
  String.mk (wordHex st.a ++ wordHex st.b ++ wordHex st.c ++ wordHex st.d ++
    wordHex st.e ++ wordHex st.f ++ wordHex st.g ++ wordHex st.h)

/-- Model of `compute_item_id` from `scripts/normalize.py`. -/
def compute_item_id (url : String) : String :=
  sha256Hexdigest (normalize_url url)

/-! ## Enrichment results (`scripts/llm_client.py`)

`LLMClient.analyze_article` parses the collaborator's JSON response and
post-processes it: the `key_points` list is padded or truncated to exactly
three entries and `reliability_score_delta` is clamped to `[-10, 10]`.  The
raw parsed response is `RawEnrichment`; the post-processing
(`finalizeEnrichment`) produces the `EnrichedItem` dataclass. -/

/-- The `EnrichedItem` dataclass from `scripts/llm_client.py`. -/
structure EnrichedItem where
  title : String
  summary : String
  key_points : List String
  themes : List String
  tags : List String
  language : String
  published_at : Option String
  reliability_score_delta : Int
  reliability_reason : String
deriving Repr, DecidableEq

/-- The collaborator's parsed JSON response before post-processing (the
`result` dict in `analyze_article` right after `json.loads`). -/
structure RawEnrichment where
  title : String
  summary : String
  key_points : List String
  themes : List String
  tags : List String
  language : String
  published_at : Option String
  reliability_score_delta : Int
  reliability_reason : String
deriving Repr, DecidableEq

/-- The post-processing at the end of `analyze_article`
(`scripts/llm_client.py` lines 273-297): adjust `key_points` to exactly 3
entries and clamp the delta to `[-10, 10]`. -/
def finalizeEnrichment (r : RawEnrichment) : EnrichedItem :=
  let kp := r.key_points
  let kp :=
    if kp.length ≠ 3 then
      if kp.length < 3 then kp ++ List.replicate (3 - kp.length) "(要点なし)"
      else kp.take 3
    else kp
  let delta := max (-10) (min 10 r.reliability_score_delta)
  { title := r.title, summary := r.summary, key_points := kp,
    themes := r.themes, tags := r.tags, language := r.language,
    published_at := r.published_at, reliability_score_delta := delta,
    reliability_reason := r.reliability_reason }

/-! ## Record construction (`scripts/store.py`) -/

/-- `BASE_RELIABILITY_SCORES` from `scripts/utils.py`. -/
def BASE_RELIABILITY_SCORES : List (String × Int) :=
  [("ministry", 80), ("intl_org", 80), ("consulting", 70), ("paper", 70),
   ("news", 60), ("tech", 50), ("blog", 50), ("other", 40)]

/-- Models `BASE_RELIABILITY_SCORES.get(source_type, 40)`. -/
def baseScoreFor (source_type : String) : Int :=
  ((BASE_RELIABILITY_SCORES.find? (fun kv => kv.1 = source_type)).map
    Prod.snd).getD 40

/-- `clamp` from `scripts/utils.py`: `max(min_val, min(value, max_val))`. -/
def clamp (value min_val max_val : Int) : Int :=
  max min_val (min value max_val)

/-- `INGEST_VERSION` from `scripts/utils.py`. -/
def INGEST_VERSION : String := "1.0.0"

/-- One stored Record (the dict built by `build_complete_item`). -/
structure Item where
  item_id : String
  url : String
  url_normalized : String
  source_group : String
  source_key : String
  source_name : String
  source_type : String
  publisher : String
  rss_title : String
  rss_pub_date : Option String
  title : String
  summary : String
  key_points : List String
  themes : List String
  tags : List String
  language : String
  published_at : Option String
  reliability_score : Int
  reliability_base : Int
  reliability_delta : Int
  reliability_reason : String
  content_length : Nat
  observed_at : String
  retrieved_at : String
  ingest_version : String
deriving Repr, DecidableEq

/-- `build_complete_item` from `scripts/store.py`; `now` is the value of
`get_jst_now().isoformat()`, passed explicitly. -/
def build_complete_item (url url_normalized item_id source_group source_key
    source_name source_type publisher rss_title : String)
    (rss_pub_date : Option String) (language : String) (content_length : Nat)
    (enrichment : EnrichedItem) (now : String) : Item :=
  let base_score := baseScoreFor source_type
  let final_score := clamp (base_score + enrichment.reliability_score_delta) 0 100
  { item_id := item_id, url := url, url_normalized := url_normalized,
    source_group := source_group, source_key := source_key,
    source_name := source_name, source_type := source_type,
    publisher := publisher, rss_title := rss_title,
    rss_pub_date := rss_pub_date, title := enrichment.title,
    summary := enrichment.summary, key_points := enrichment.key_points,
    themes := enrichment.themes, tags := enrichment.tags,
    language := enrichment.language, published_at := enrichment.published_at,
    reliability_score := final_score, reliability_base := base_score,
    reliability_delta := enrichment.reliability_score_delta,
    reliability_reason := enrichment.reliability_reason,
    content_length := content_length, observed_at := now,
    retrieved_at := now, ingest_version := INGEST_VERSION }

/-! ## A JSON parser (model of `json.loads` / `json.load`)

`load_index` and `load_items_for_month` only depend on whether a text
parses as JSON and on the parsed value's identity, so the model implements
the JSON grammar directly: objects, arrays, strings with escapes, `true`,
`false`, `null` and numbers.  Numbers are validated against the JSON
numeral grammar and kept as their source text (their numeric value is
never consumed by the claims).  Parsing is fuelled structural recursion;
the fuel (the input length) always suffices because every recursive call
consumes at least one character. -/

/-- JSON values. -/
inductive Json where
  | null : Json
  | bool (b : Bool) : Json
  | num (raw : String) : Json
  | str (s : String) : Json
  | arr (elems : List Json) : Json
  | obj (fields : List (String × Json)) : Json

/-- JSON whitespace. -/
def isJsonWs (c : Char) : Bool := c = ' ' ∨ c = '\t' ∨ c = '\n' ∨ c = '\r'

/-- Drop leading JSON whitespace. -/
def skipWs (l : List Char) : List Char := l.dropWhile isJsonWs

/-- Parse the body of a JSON string literal (after the opening quote),
returning the decoded characters and the rest of the input. -/
def parseStrChars : List Char → Option (List Char × List Char)
  | [] => none
  | '"' :: rest => some ([], rest)
  | '\\' :: 'u' :: h1 :: h2 :: h3 :: h4 :: rest =>
    match hexVal? h1, hexVal? h2, hexVal? h3, hexVal? h4 with
    | some a, some b, some c, some d =>
      (parseStrChars rest).map
        (fun r => (Char.ofNat (((a * 16 + b) * 16 + c) * 16 + d) :: r.1, r.2))
    | _, _, _, _ => none
  | '\\' :: esc :: rest =>
    match esc with
    | '"' => (parseStrChars rest).map (fun r => ('"' :: r.1, r.2))
    | '\\' => (parseStrChars rest).map (fun r => ('\\' :: r.1, r.2))
    | '/' => (parseStrChars rest).map (fun r => ('/' :: r.1, r.2))
    | 'b' => (parseStrChars rest).map (fun r => ('\x08' :: r.1, r.2))
    | 'f' => (parseStrChars rest).map (fun r => ('\x0c' :: r.1, r.2))
    | 'n' => (parseStrChars rest).map (fun r => ('\n' :: r.1, r.2))
    | 'r' => (parseStrChars rest).map (fun r => ('\x0d' :: r.1, r.2))
    | 't' => (parseStrChars rest).map (fun r => ('\t' :: r.1, r.2))
    | _ => none
  | c :: rest =>
    if c.toNat < 32 then none
    else (parseStrChars rest).map (fun r => (c :: r.1, r.2))

/-- Digits helper. -/
def isDigitChar (c : Char) : Bool := '0' ≤ c ∧ c ≤ '9'

/-- Parse a JSON numeral (returning its raw text), validating the grammar
`-? (0 | [1-9][0-9]*) (. [0-9]+)? ([eE] [+-]? [0-9]+)?`. -/
def parseNum (l : List Char) : Option (List Char × List Char) :=
  let (sign, l1) := if l.headD ' ' = '-' then (['-'], l.drop 1) else ([], l)
  let intDigits := l1.takeWhile isDigitChar
  let l2 := l1.dropWhile isDigitChar
  if intDigits = [] then none
  else if intDigits.headD ' ' = '0' ∧ intDigits.length > 1 then none
  else
    let hasFrac := l2.headD ' ' = '.'
    let fracDigits := if hasFrac then (l2.drop 1).takeWhile isDigitChar else []
    let l3 := if hasFrac then (l2.drop 1).dropWhile isDigitChar else l2
    if hasFrac ∧ fracDigits = [] then none
    else
      let frac := if hasFrac then '.' :: fracDigits else []
      if l3.headD ' ' = 'e' ∨ l3.headD ' ' = 'E' then
        let eChar := l3.headD ' '
        let l3' := l3.drop 1
        let hasSign := l3'.headD ' ' = '+' ∨ l3'.headD ' ' = '-'
        let esign := if hasSign then [l3'.headD ' '] else []
        let l3'' := if hasSign then l3'.drop 1 else l3'
        let expDigits := l3''.takeWhile isDigitChar
        if expDigits = [] then none
        else
          some (sign ++ intDigits ++ frac ++ eChar :: esign ++ expDigits,
            l3''.dropWhile isDigitChar)
      else some (sign ++ intDigits ++ frac, l3)

/-- Parser mode: a value, the members of an object, or the elements of an
array (with the members/elements parsed so far). -/
inductive PMode where
  | val : PMode
  | objf (acc : List (String × Json)) : PMode
  | arre (acc : List Json) : PMode

/-- Fuelled JSON parser (one function so that the recursion is structural
on the fuel and reduces in the kernel). -/
def parseCore : Nat → PMode → List Char → Option (Json × List Char)
  | 0, _, _ => none
  | fuel + 1, .val, l =>
    match l with
    | [] => none
    | '"' :: rest => (parseStrChars rest).map (fun r => (Json.str (String.mk r.1), r.2))
    | '{' :: rest =>
      match skipWs rest with
      | '}' :: rest' => some (Json.obj [], rest')
      | rest' => parseCore fuel (.objf []) rest'
    | '[' :: rest =>
      match skipWs rest with
      | ']' :: rest' => some (Json.arr [], rest')
      | rest' => parseCore fuel (.arre []) rest'
    | 't' :: 'r' :: 'u' :: 'e' :: rest => some (Json.bool true, rest)
    | 'f' :: 'a' :: 'l' :: 's' :: 'e' :: rest => some (Json.bool false, rest)
    | 'n' :: 'u' :: 'l' :: 'l' :: rest => some (Json.null, rest)
    | l' => (parseNum l').map (fun r => (Json.num (String.mk r.1), r.2))
  | fuel + 1, .objf acc, l =>
    match l with
    | '"' :: rest =>
      match parseStrChars rest with
      | none => none
      | some (key, rest1) =>
        match skipWs rest1 with
        | ':' :: rest2 =>
          match parseCore fuel .val (skipWs rest2) with
          | none => none
          | some (v, rest3) =>
            match skipWs rest3 with
            | ',' :: rest4 => parseCore fuel (.objf (acc ++ [(String.mk key, v)])) (skipWs rest4)
            | '}' :: rest4 => some (Json.obj (acc ++ [(String.mk key, v)]), rest4)
            | _ => none
        | _ => none
    | _ => none
  | fuel + 1, .arre acc, l =>
    match parseCore fuel .val l with
    | none => none
    | some (v, rest) =>
      match skipWs rest with
      | ',' :: rest' => parseCore fuel (.arre (acc ++ [v])) (skipWs rest')
      | ']' :: rest' => some (Json.arr (acc ++ [v]), rest')
      | _ => none

/-- Fuelled JSON value parser. -/
def parseValue (fuel : Nat) (l : List Char) : Option (Json × List Char) :=
  parseCore fuel .val l

/-- Model of `json.loads`: parse one JSON document, requiring the whole
input to be consumed (up to whitespace); `none` models `JSONDecodeError`. -/
def parseJson (s : String) : Option Json :=
  let l := skipWs s.data
  match parseValue (l.length + 1) l with
  | some (j, rest) => if skipWs rest = [] then some j else none
  | none => none

/-! ## The persistent stores (`scripts/store.py`)

The file system is modelled as the file's contents: `none` for a missing
file, `some text` for an existing one. -/

/-- Model of `load_index`: a missing file and a file that fails to parse
both yield the empty index (`{}`); the `JSONDecodeError`/`IOError` handler
never lets the exception propagate. -/
def load_index (file : Option String) : Json :=
  match file with
  | none => Json.obj []
  | some text =>
    match parseJson text with
    | some j => j
    | none => Json.obj []

/-- One iteration of the reading loop of `load_items_for_month`: strip the
line, skip it when empty, parse it, skip it when parsing fails. -/
def loadItemStep (items : List Json) (line : String) : List Json :=
  let stripped := pyStrip line
  if stripped ≠ "" then
    match parseJson stripped with
    | some j => items ++ [j]
    | none => items
  else items

/-- The accumulating loop of `load_items_for_month`. -/
def loadItemLines (lines : List String) : List Json :=
  lines.foldl loadItemStep []

/-- Model of `load_items_for_month`: a missing partition yields `[]`;
otherwise the file is read line by line. -/
def load_items_for_month (file : Option String) : List Json :=
  match file with
  | none => []
  | some content =>
    loadItemLines ((splitOnChar '\n' content.data).map String.mk)

/-! ## The deduplication index and the orchestrator (`scripts/run_daily.py`)

For the orchestrator-level claims the monthly partition and the index are
modelled at the record level (an `append_item`/`load` roundtrip through the
JSONL serialisation is the identity for the records the pipeline writes, so
the month file is a `List Item` and the index an association list keyed by
`item_id`).  The two external collaborators, `fetch_and_extract` and
`LLMClient.analyze_article`, are parameters: both return `none` on failure
(the fetcher catches its exceptions internally and returns `None`; an
enrichment failure — a `None` result or an exception after the retries —
lands in the error list and the loop continues with the next candidate, so
both observable outcomes are modelled by `none`). -/

/-- One entry of the deduplication index (`add_to_index`). -/
structure IndexEntry where
  first_seen : String
  source : String
  title : String
deriving Repr, DecidableEq

/-- The in-memory index: `item_id -> IndexEntry`, insertion-ordered. -/
abbrev Index := List (String × IndexEntry)

/-- Model of `add_to_index`: Python dict assignment (overwrite in place, or
append a new key at the end). -/
def add_to_index (index : Index) (item_id source_name title now : String) :
    Index :=
  let entry : IndexEntry :=
    { first_seen := now, source := source_name, title := strTake title 100 }
  if index.any (fun kv => kv.1 = item_id) then
    index.map (fun kv => if kv.1 = item_id then (item_id, entry) else kv)
  else index ++ [(item_id, entry)]

/-- Model of `is_duplicate` from `scripts/normalize.py`: membership of the
computed item id in the index. -/
def is_duplicate (url : String) (index : Index) : Bool :=
  index.any (fun kv => kv.1 = compute_item_id url)

/-- One RSS candidate, as produced by the collection collaborator. -/
structure Candidate where
  url : String
  title : String
  pub_date : Option String
  source_key : String
  source_name : String
  source_type : String
  publisher : String
  language : String
deriving Repr, DecidableEq

/-- A storage effect of the COMMIT step, in execution order. -/
inductive Effect where
  | append (item : Item) : Effect
  | addIndex (item_id : String) : Effect
deriving Repr, DecidableEq

/-- The orchestrator state while processing one source group. -/
structure GroupState where
  processed : List Item
  duplicates : Nat
  errors : List String
  index : Index
  appendedStore : List Item
  trace : List Effect
deriving Repr, DecidableEq

/-- The per-candidate loop of `process_source_group`
(`scripts/run_daily.py` lines 102-174).  In the COMMIT step the source
calls `append_item(item)` first (line 164) and `add_to_index` second
(line 165); the `trace` records the two effects in that execution order. -/
def processLoop (fetch : String → Option String)
    (analyze : String → Candidate → Option EnrichedItem)
    (source_group : String) (max_items : Nat) (now : String) :
    List Candidate → GroupState → GroupState
  | [], st => st
  | candidate :: rest, st =>
    if max_items ≤ st.processed.length then st
    else
      let url := candidate.url
      let url_normalized := normalize_url url
      let item_id := compute_item_id url
      if is_duplicate url st.index then
        processLoop fetch analyze source_group max_items now rest
          { st with duplicates := st.duplicates + 1 }
      else
        let contentO := fetch url
        let content_length := (contentO.getD "").length
        let content := contentO.getD ""
        match analyze content candidate with
        | none =>
          processLoop fetch analyze source_group max_items now rest
            { st with errors :=
                st.errors ++ ["LLM analysis failed: " ++ strTake url 50] }
        | some enrichment =>
          let item := build_complete_item url url_normalized item_id
            source_group candidate.source_key candidate.source_name
            candidate.source_type candidate.publisher candidate.title
            candidate.pub_date candidate.language content_length enrichment now
          let st1 := { st with
            appendedStore := st.appendedStore ++ [item],
            trace := st.trace ++ [Effect.append item] }
          let st2 := { st1 with
            index := add_to_index st1.index item_id candidate.source_name item.title now,
            trace := st1.trace ++ [Effect.addIndex item_id] }
          processLoop fetch analyze source_group max_items now rest
            { st2 with processed := st2.processed ++ [item] }

/-- Model of `process_source_group`: run the loop from an empty state over
the collected candidates. -/
def process_source_group (fetch : String → Option String)
    (analyze : String → Candidate → Option EnrichedItem)
    (source_group : String) (max_items : Nat) (index : Index) (now : String)
    (candidates : List Candidate) : GroupState :=
  processLoop fetch analyze source_group max_items now candidates
    { processed := [], duplicates := 0, errors := [], index := index,
      appendedStore := [], trace := [] }

/-- `MAX_HIGH_TRUST_ITEMS` from `scripts/utils.py`. -/
def MAX_HIGH_TRUST_ITEMS : Nat := 20

/-- `MAX_TREND_ITEMS` from `scripts/utils.py`. -/
def MAX_TREND_ITEMS : Nat := 20

/-- Model of `get_items_for_date` over the month partition that
`load_items_for_month(date_str[:7])` returns: keep the items whose
`observed_at` starts with the date, split by `source_group == "high"`. -/
def get_items_for_date (date_str : String) (monthItems : List Item) :
    List Item × List Item :=
  (monthItems.filter
     (fun item => strStartsWith item.observed_at date_str ∧ item.source_group = "high"),
   monthItems.filter
     (fun item => strStartsWith item.observed_at date_str ∧ item.source_group ≠ "high"))

/-- Which Slack notification `run_daily` sends at the end of a run. -/
inductive NotificationChoice where
  | daily : NotificationChoice
  | noUpdates : NotificationChoice
deriving Repr, DecidableEq

/-- The observable outcome of one `run_daily` invocation. -/
structure RunResult where
  highStats : GroupState
  trendStats : GroupState
  high_items : List Item
  trend_items : List Item
  notification : NotificationChoice
deriving Repr, DecidableEq

/-- Model of the storage / notification slice of `run_daily`
(`scripts/run_daily.py` lines 274-375): process the HIGH group, then the
TREND group with the updated index, then query the month partition for the
date and choose the notification.  `priorMonthItems` is the partition's
contents before the run (the run date and `date_str` are assumed to share
the calendar month, as in a normal daily run). -/
def run_daily_model (fetch : String → Option String)
    (analyze : String → Candidate → Option EnrichedItem)
    (priorMonthItems : List Item) (index0 : Index)
    (candsHigh candsTrend : List Candidate) (date_str now : String) :
    RunResult :=
  let high_stats := process_source_group fetch analyze "high"
    MAX_HIGH_TRUST_ITEMS index0 now candsHigh
  let trend_stats := process_source_group fetch analyze "trend"
    MAX_TREND_ITEMS high_stats.index now candsTrend
  let monthItems :=
    priorMonthItems ++ high_stats.appendedStore ++ trend_stats.appendedStore
  let hi := get_items_for_date date_str monthItems
  let notification :=
    if hi.1 ≠ [] ∨ hi.2 ≠ [] then NotificationChoice.daily
    else NotificationChoice.noUpdates
  { highStats := high_stats, trendStats := trend_stats,
    high_items := hi.1, trend_items := hi.2, notification := notification }

/-! ## The GitHub-discussion reconciler (`scripts/github_discussions.py`)

The remote GraphQL state is modelled explicitly: a list of discussions in
reverse-chronological order (the order of the `orderBy: CREATED_AT DESC`
query; creation prepends), each with its comments in chronological order
(creation appends).  Node ids are drawn from a counter.  Remote-transport
failures are outside the model (they abort the reconciliation and are
caught by `run_daily`); the one local failure, the missing category id in
`create_daily_discussion`, is the `none` case. -/

/-- A discussion comment. -/
structure DComment where
  id : Nat
  body : String
deriving Repr, DecidableEq

/-- A discussion thread. -/
structure Discussion where
  id : Nat
  number : Nat
  url : String
  title : String
  body : String
  comments : List DComment
deriving Repr, DecidableEq

/-- The remote state: discussions newest-first, plus the id counter. -/
structure RemoteState where
  discussions : List Discussion
  nextId : Nat
deriving Repr, DecidableEq

/-- The `DiscussionInfo` TypedDict. -/
structure DiscussionInfo where
  id : Nat
  number : Nat
  url : String
deriving Repr, DecidableEq

/-- The statistics dict handed to `create_daily_discussion`. -/
structure Stats where
  high_count : Nat
  trend_count : Nat
  duplicates : Nat
  errors : List String
deriving Repr, DecidableEq

/-- The deterministic thread title, `"[EIC][Daily] {date_str} (JST)"`. -/
def titleFor (date_str : String) : String :=
  "[EIC][Daily] " ++ date_str ++ " (JST)"

/-- The idempotency marker, `"<!-- EIC:LIST:{list_type}:{date_str} -->"`. -/
def markerFor (list_type date_str : String) : String :=
  "<!-- EIC:LIST:" ++ list_type ++ ":" ++ date_str ++ " -->"

/-- Model of `find_daily_discussion`: scan the 50 most recent discussions
for an exact title match. -/
def find_daily_discussion (s : RemoteState) (date_str : String) :
    Option DiscussionInfo :=
  ((s.discussions.take 50).find? (fun d => d.title = titleFor date_str)).map
    (fun d => { id := d.id, number := d.number, url := d.url })

/-- The thread body rendered by `create_daily_discussion`. -/
def buildDailyDiscussionBody (date_str : String) (stats : Stats) : String :=
  let body_lines :=
    ["# EIC Daily Insights - " ++ date_str,
     "",
     "HR関連の外部情報を自動収集しました。",
     "",
     "## 収集サマリ",
     "",
     "- **High Trust**: " ++ toString stats.high_count ++ "件",
     "- **Trend**: " ++ toString stats.trend_count ++ "件",
     "- **重複スキップ**: " ++ toString stats.duplicates ++ "件"]
  let body_lines :=
    if stats.errors ≠ [] then
      body_lines ++ ["", "## エラー", ""] ++
        (stats.errors.take 10).map (fun e => "- " ++ e)
    else body_lines
  let body_lines := body_lines ++
    ["", "---", "",
     "**HIGH TRUST**: 省庁・研究機関・大手メディアからの記事", "",
     "**TREND**: Zenn/Qiita等トレンド系メディアからの記事", "",
     "---", "",
     "📁 データ: `data/items/" ++ strTake date_str 7 ++ ".jsonl`"]
  pyJoin "\n" body_lines

/-- Model of `create_daily_discussion`: `none` models the `ValueError`
raised when the Discussions category id is not configured. -/
def create_daily_discussion (category_id : String) (s : RemoteState)
    (date_str : String) (stats : Stats) :
    Option (DiscussionInfo × RemoteState) :=
  if category_id = "" then none
  else
    let disc : Discussion :=
      { id := s.nextId, number := s.nextId,
        url := "https://github.com/discussions/" ++ toString s.nextId,
        title := titleFor date_str,
        body := buildDailyDiscussionBody date_str stats,
        comments := [] }
    some ({ id := disc.id, number := disc.number, url := disc.url },
      { discussions := disc :: s.discussions, nextId := s.nextId + 1 })

/-- Model of `find_comment_by_marker`: scan the first 20 comments of the
discussion for a body containing the marker substring. -/
def find_comment_by_marker (s : RemoteState) (discussion_id : Nat)
    (marker : String) : Option DComment :=
  match s.discussions.find? (fun d => d.id = discussion_id) with
  | none => none
  | some disc => (disc.comments.take 20).find? (fun c => containsSub marker c.body)

/-- Model of `create_discussion_comment`: append a fresh comment to the
discussion, returning its id. -/
def create_discussion_comment (s : RemoteState) (discussion_id : Nat)
    (body : String) : Nat × RemoteState :=
  (s.nextId,
   { discussions := s.discussions.map (fun d =>
       if d.id = discussion_id then
         { d with comments := d.comments ++ [{ id := s.nextId, body := body }] }
       else d),
     nextId := s.nextId + 1 })

/-- Model of `update_discussion_comment`: replace the body of the comment
with the given id. -/
def update_discussion_comment (s : RemoteState) (comment_id : Nat)
    (body : String) : RemoteState :=
  { s with discussions := s.discussions.map (fun d =>
      { d with comments := d.comments.map (fun c =>
          if c.id = comment_id then { c with body := body } else c) }) }

/-- The per-item block of `build_list_comment_body`. -/
def renderListItem (emoji : String) (n : Nat) (item : Item) : List String :=
  let reliability := item.reliability_score
  let rel_emoji :=
    if 70 ≤ reliability then "🟢" else if 50 ≤ reliability then "🟡" else "🔴"
  ["### " ++ toString n ++ ". [" ++ item.title ++ "](" ++ item.url ++ ")",
   "",
   "**" ++ emoji ++ " " ++ item.source_name ++ "** | `" ++ item.source_type ++
     "` | " ++ rel_emoji ++ " " ++ toString reliability,
   ""] ++
  (if item.themes ≠ [] then ["**テーマ**: " ++ pyJoin ", " item.themes, ""] else []) ++
  (if item.summary ≠ "" then [strTake item.summary 500, ""] else []) ++
  (if item.key_points ≠ [] then
    ["**要点:**"] ++ (item.key_points.take 3).map (fun kp => "- " ++ kp) ++ [""]
   else []) ++
  ["---", ""]

/-- Model of `build_list_comment_body`. -/
def build_list_comment_body (list_type date_str : String) (items : List Item) :
    String :=
  let marker := markerFor list_type date_str
  let header := if list_type = "HIGH" then "## High Trust Sources" else "## Trend Sources"
  let emoji := if list_type = "HIGH" then "🏛️" else "📈"
  let lines := [marker, "", header, ""]
  if items = [] then pyJoin "\n" (lines ++ ["_収集アイテムなし_"])
  else
    pyJoin "\n" (lines ++
      (items.enumFrom 1).flatMap (fun p => renderListItem emoji p.1 p.2))

/-- Model of `upsert_list_comment`: update the comment carrying the marker
in place, or create a new one. -/
def upsert_list_comment (s : RemoteState) (discussion_id : Nat)
    (list_type date_str : String) (items : List Item) : RemoteState :=
  let marker := markerFor list_type date_str
  let body := build_list_comment_body list_type date_str items
  match find_comment_by_marker s discussion_id marker with
  | some existing => update_discussion_comment s existing.id body
  | none => (create_discussion_comment s discussion_id body).2

/-- Model of `ensure_daily_discussion`: find, else create. -/
def ensure_daily_discussion (category_id : String) (s : RemoteState)
    (date_str : String) (stats : Stats) :
    Option (DiscussionInfo × RemoteState) :=
  match find_daily_discussion s date_str with
  | some existing => some (existing, s)
  | none => create_daily_discussion category_id s date_str stats

/-- The reconciliation protocol exactly as `run_daily` drives it
(`scripts/run_daily.py` lines 317-334): ensure the daily thread, then
upsert the HIGH list comment, then the TREND list comment. -/
def runReconcile (category_id date_str : String) (stats : Stats)
    (high_items trend_items : List Item) (s : RemoteState) :
    Option RemoteState :=
  match ensure_daily_discussion category_id s date_str stats with
  | none => none
  | some (info, s1) =>
    let s2 := upsert_list_comment s1 info.id "HIGH" date_str high_items
    some (upsert_list_comment s2 info.id "TREND" date_str trend_items)

/-! ## Trace-order predicates for the COMMIT step -/

/-- Worker for `indexUpdatedBeforeAppend`: `seen` accumulates the ids whose
index update has already happened. -/
def ibaGo (seen : List String) : List Effect → Bool
  | [] => true
  | Effect.append item :: rest => seen.contains item.item_id && ibaGo seen rest
  | Effect.addIndex id :: rest => ibaGo (id :: seen) rest

/-- The ordering asserted by the claim: every store append is preceded by
the index update for the same item id. -/
def indexUpdatedBeforeAppend (tr : List Effect) : Bool := ibaGo [] tr

/-- Worker for `appendedBeforeIndexUpdate`. -/
def abiGo (seen : List String) : List Effect → Bool
  | [] => true
  | Effect.addIndex id :: rest => seen.contains id && abiGo seen rest
  | Effect.append item :: rest => abiGo (item.item_id :: seen) rest

/-- The ordering the source actually implements: every index update is
preceded by the store append of the same item id. -/
def appendedBeforeIndexUpdate (tr : List Effect) : Bool := abiGo [] tr

/-- The effect pair emitted by one COMMIT, in the source's execution
order. -/
def commitEffects (item : Item) : List Effect :=
  [Effect.append item, Effect.addIndex item.item_id]

/-! ## Concrete inputs used by counterexamples and witnesses -/

/-- A raw enrichment response with a given delta (concrete inputs for the
reliability-score claim). -/
def mkRawEnrichment (delta : Int) : RawEnrichment :=
  { title := "t", summary := "s", key_points := ["k1", "k2", "k3"],
    themes := [], tags := [], language := "ja", published_at := none,
    reliability_score_delta := delta, reliability_reason := "r" }

/-- A concrete enrichment result for orchestrator runs. -/
def cexEnrichment : EnrichedItem :=
  finalizeEnrichment (mkRawEnrichment 5)

/-- A concrete RSS candidate. -/
def cexCandidate : Candidate :=
  { url := "http://example.com/article-1", title := "Article 1",
    pub_date := some "2024-01-14", source_key := "src1",
    source_name := "Source One", source_type := "ministry",
    publisher := "Pub", language := "ja" }

/-- A record stored by an earlier run on the same date (used by the
notification claim). -/
def priorItem : Item :=
  { item_id := "prior-id", url := "http://example.com/prior",
    url_normalized := "http://example.com/prior", source_group := "high",
    source_key := "src1", source_name := "Source One",
    source_type := "ministry", publisher := "Pub", rss_title := "Prior",
    rss_pub_date := none, title := "Prior", summary := "S",
    key_points := ["a", "b", "c"], themes := [], tags := [],
    language := "ja", published_at := none, reliability_score := 90,
    reliability_base := 80, reliability_delta := 10,
    reliability_reason := "r", content_length := 100,
    observed_at := "2024-01-15T08:00:00+09:00",
    retrieved_at := "2024-01-15T08:00:00+09:00", ingest_version := "1.0.0" }

/-- An item whose title smuggles the TREND marker for 2024-01-15 into the
rendered HIGH list (the marker-injection counterexample). -/
def injectionItem : Item :=
  { priorItem with title := "x <!-- EIC:LIST:TREND:2024-01-15 --> y" }

/-- First URL of the duplicate-key counterexample. -/
def dupKeyUrl1 : String := "http://example.com/a?a=1&a=3"

/-- Second URL of the duplicate-key counterexample: the same query
parameters in a different order. -/
def dupKeyUrl2 : String := "http://example.com/a?a=3&a=1"

/-- Parse result of `dupKeyUrl1`. -/
def dupKeyParts1 : UrlParts :=
  { scheme := "http", netloc := "example.com", path := "/a", params := "",
    query := "a=1&a=3", fragment := "" }

/-- Parse result of `dupKeyUrl2`. -/
def dupKeyParts2 : UrlParts :=
  { scheme := "http", netloc := "example.com", path := "/a", params := "",
    query := "a=3&a=1", fragment := "" }

/-- Parse result of the spec's first example URL,
`http://WWW.Example.com/a/?utm_source=x&b=2&a=1#frag`. -/
def specExampleParts1 : UrlParts :=
  { scheme := "http", netloc := "WWW.Example.com", path := "/a/", params := "",
    query := "utm_source=x&b=2&a=1", fragment := "frag" }

/-- Parse result of the spec's second example URL,
`http://example.com/a?a=1&b=2`. -/
def specExampleParts2 : UrlParts :=
  { scheme := "http", netloc := "example.com", path := "/a", params := "",
    query := "a=1&b=2", fragment := "" }

/-- The per-line selection performed by the reading loop of
`load_items_for_month`. -/
def lineRecord (line : String) : Option Json :=
  if pyStrip line = "" then none else parseJson (pyStrip line)

/-- Join query fields with a separator character (the inverse of
`splitOnChar` on separator-free fields). -/
def joinFields (c : Char) : List (List Char) → List Char
  | [] => []
  | [f] => f
  | f :: g :: rest => f ++ c :: joinFields c (g :: rest)

/-! ## Shared lemmas -/

theorem loadItemLines_foldl_eq (lines : List String) (acc : List Json) :
    lines.foldl loadItemStep acc = acc ++ lines.filterMap lineRecord := by
  induction lines generalizing acc with
  | nil => simp
  | cons l ls ih =>
    simp only [List.foldl_cons, List.filterMap_cons]
    by_cases h0 : pyStrip l = ""
    · simp [loadItemStep, lineRecord, h0, ih]
    · cases hp : parseJson (pyStrip l) with
      | none => simp [loadItemStep, lineRecord, h0, hp, ih]
      | some j => simp [loadItemStep, lineRecord, h0, hp, ih]

theorem loadItemLines_eq (lines : List String) :
    loadItemLines lines = lines.filterMap lineRecord := by
  simpa using loadItemLines_foldl_eq lines []

/-! ## Claim C7 -/

/-- C7: `load_index` on a missing backing file, or on a backing file whose
contents fail to parse as JSON, returns an empty Index and propagates no
exception, so the run proceeds treating every candidate as new. -/
theorem C7_load_index_missing_or_corrupt_empty :
    load_index none = Json.obj [] ∧
    ∀ text : String, parseJson text = none → load_index (some text) = Json.obj [] := by
  refine ⟨rfl, fun text h => ?_⟩
  simp [load_index, h]

/-- Witness for C7 at the concrete corrupt file text. -/
theorem C7_witness :
    parseJson "\x7bnot json" = none ∧
    load_index (some "\x7bnot json") = Json.obj [] :=
  ⟨rfl, C7_load_index_missing_or_corrupt_empty.2 "\x7bnot json" rfl⟩

/-! ## Claim C8 -/

/-- C8: for every monthly partition file, `load_items_for_month` returns
exactly the records on lines that parse as JSON, in file order: a malformed
line anywhere in the partition is skipped without raising and without
dropping any subsequent valid line. -/
theorem C8_malformed_lines_skipped :
    (∀ content : String,
      load_items_for_month (some content) =
        ((splitOnChar '\n' content.data).map String.mk).filterMap lineRecord) ∧
    (∀ (pre post : List String) (bad : String), lineRecord bad = none →
      loadItemLines (pre ++ bad :: post) = loadItemLines (pre ++ post)) := by
  constructor
  · intro content
    simp [load_items_for_month, loadItemLines_eq]
  · intro pre post bad hbad
    simp [loadItemLines_eq, List.filterMap_append, List.filterMap_cons, hbad]

/-- Witness for C8, on a partition with a malformed middle line. -/
theorem C8_witness :
    lineRecord "garbage" = none ∧
    loadItemLines ["\x7b\"a\": 1\x7d", "garbage", "\x7b\"b\": 2\x7d"] =
      loadItemLines ["\x7b\"a\": 1\x7d", "\x7b\"b\": 2\x7d"] :=
  ⟨rfl,
   C8_malformed_lines_skipped.2 ["\x7b\"a\": 1\x7d"] ["\x7b\"b\": 2\x7d"] "garbage" rfl⟩

/-! ## Claim C5 -/

/-- C5: every Record built by the pipeline has a `key_points` list of
exactly 3 entries, even when the enrichment collaborator's raw response
contains 0, 1, or 5 key points (the list is padded or truncated when the
enrichment result is built).  The universal statement covers every raw
key-point count; the conjuncts instantiate it at raw counts 0, 1 and 5. -/
theorem C5_key_points_exactly_three :
    (∀ (raw : RawEnrichment) (url url_normalized item_id source_group
      source_key source_name source_type publisher rss_title : String)
      (rss_pub_date : Option String) (language : String)
      (content_length : Nat) (now : String),
      (build_complete_item url url_normalized item_id source_group source_key
        source_name source_type publisher rss_title rss_pub_date language
        content_length (finalizeEnrichment raw) now).key_points.length = 3) ∧
    (finalizeEnrichment { mkRawEnrichment 0 with key_points := [] }).key_points.length = 3 ∧
    (finalizeEnrichment { mkRawEnrichment 0 with key_points := ["p1"] }).key_points.length = 3 ∧
    (finalizeEnrichment
      { mkRawEnrichment 0 with
        key_points := ["p1", "p2", "p3", "p4", "p5"] }).key_points.length = 3 := by
  refine ⟨fun raw _ _ _ _ _ _ _ _ _ _ _ _ _ => ?_, rfl, rfl, rfl⟩
  simp only [build_complete_item, finalizeEnrichment]
  split_ifs with h1 h2 <;>
    [simp only [List.length_append, List.length_replicate];
     simp only [List.length_take]; skip] <;>
    omega

/-! ## Claim C4 -/

/-- C4 counterexample: with base score 80 (source type `ministry`) and a
raw delta of +30 from the enrichment collaborator, the stored reliability
score is 90, not 100 as the claim states: `analyze_article` clamps the
delta to `[-10, 10]` before `build_complete_item` adds the base. -/
theorem C4_counterexample :
    (build_complete_item "u" "u" "id" "high" "sk" "sn" "ministry" "p" "rt"
      none "ja" 100 (finalizeEnrichment (mkRawEnrichment 30))
      "2024-01-15T09:00:00+09:00").reliability_score = 90 ∧
    ¬ (build_complete_item "u" "u" "id" "high" "sk" "sn" "ministry" "p" "rt"
      none "ja" 100 (finalizeEnrichment (mkRawEnrichment 30))
      "2024-01-15T09:00:00+09:00").reliability_score = 100 := by
  constructor <;> decide

/-- C4 (amended): the stored reliability score equals the base score for
the source type (default 40 for unknown types) plus the enrichment delta
after that delta has been clamped to `[-10, 10]` by `analyze_article`, the
sum clamped to `[0, 100]`; base 80 with delta +10 gives 90, base 40 with
delta -10 gives 30, and base 80 with a raw +30 delta input gives 90 (the
delta clamp caps it), not 100. -/
theorem C4_reliability_score_clamped :
    (∀ (raw : RawEnrichment) (url url_normalized item_id source_group
      source_key source_name source_type publisher rss_title : String)
      (rss_pub_date : Option String) (language : String)
      (content_length : Nat) (now : String),
      (build_complete_item url url_normalized item_id source_group source_key
        source_name source_type publisher rss_title rss_pub_date language
        content_length (finalizeEnrichment raw) now).reliability_score =
          clamp (baseScoreFor source_type +
            max (-10) (min 10 raw.reliability_score_delta)) 0 100 ∧
      0 ≤ (build_complete_item url url_normalized item_id source_group
        source_key source_name source_type publisher rss_title rss_pub_date
        language content_length (finalizeEnrichment raw) now).reliability_score ∧
      (build_complete_item url url_normalized item_id source_group source_key
        source_name source_type publisher rss_title rss_pub_date language
        content_length (finalizeEnrichment raw) now).reliability_score ≤ 100) ∧
    (build_complete_item "u" "u" "id" "high" "sk" "sn" "ministry" "p" "rt"
      none "ja" 100 (finalizeEnrichment (mkRawEnrichment 10))
      "now").reliability_score = 90 ∧
    (build_complete_item "u" "u" "id" "high" "sk" "sn" "unknown-type" "p" "rt"
      none "ja" 100 (finalizeEnrichment (mkRawEnrichment (-10)))
      "now").reliability_score = 30 ∧
    (build_complete_item "u" "u" "id" "high" "sk" "sn" "ministry" "p" "rt"
      none "ja" 100 (finalizeEnrichment (mkRawEnrichment 30))
      "now").reliability_score = 90 := by
  refine ⟨fun raw _ _ _ _ _ _ _ source_type _ _ _ _ _ => ⟨rfl, ?_, ?_⟩,
    by decide, by decide, by decide⟩
  · simp only [build_complete_item, finalizeEnrichment, clamp]
    omega
  · simp only [build_complete_item, finalizeEnrichment, clamp]
    omega

/-! ## Claim C9 -/

theorem lowerHexDigit_mem (n : Nat) :
    lowerHexDigit n ∈ "0123456789abcdef".data := by
  unfold lowerHexDigit
  split <;> decide

theorem mem_wordHex {c : Char} {x : Nat} (h : c ∈ wordHex x) :
    c ∈ "0123456789abcdef".data := by
  simp only [wordHex, List.mem_cons, List.not_mem_nil, or_false] at h
  rcases h with rfl | rfl | rfl | rfl | rfl | rfl | rfl | rfl <;>
    exact lowerHexDigit_mem _

/-- C9: for every input string, including malformed URLs, `normalize_url`
never raises: on a parsing failure it returns the input unchanged, so
`compute_item_id` is total and always yields a 64-character hex digest for
any input string.  (`normalize_url` and `compute_item_id` are total
functions of the input by construction; the substance is the fail-soft
equation and the shape of the digest.) -/
theorem C9_normalize_fail_soft_and_id_total :
    (∀ url : String, urlparseE url = none → normalize_url url = url) ∧
    (∀ url : String, (compute_item_id url).length = 64 ∧
      ∀ c ∈ (compute_item_id url).data, c ∈ "0123456789abcdef".data) := by
  constructor
  · intro url h
    simp [normalize_url, h]
  · intro url
    constructor
    · show (String.mk _).length = 64
      simp only [String.length, wordHex, List.length_append, List.length_cons,
        List.length_nil]
    · intro c hc
      dsimp only [compute_item_id, sha256Hexdigest] at hc
      simp only [List.mem_append] at hc
      rcases hc with ((((((h | h) | h) | h) | h) | h) | h) | h <;>
        exact mem_wordHex h

/-- Witness for C9: the concrete malformed URL `http://[::1` (an unmatched
IPv6 bracket) parses to a failure and normalizes to itself, and its item id
still has 64 characters. -/
theorem C9_witness :
    (urlparseE "http://[::1" = none ∧ normalize_url "http://[::1" = "http://[::1") ∧
    (compute_item_id "http://[::1").length = 64 :=
  ⟨⟨rfl, C9_normalize_fail_soft_and_id_total.1 "http://[::1" rfl⟩,
   (C9_normalize_fail_soft_and_id_total.2 "http://[::1").1⟩

/-! ## Claim C2 -/

/-- Chaining step for `processLoop_spec`: a loop iteration that advances
the state by the committed items `d0` composes with the rest of the loop. -/
theorem processChain {fetch : String → Option String}
    {analyze : String → Candidate → Option EnrichedItem}
    {source_group : String} {max_items : Nat} {now : String}
    {rest : List Candidate} {st S : GroupState} (d0 : List Item)
    (hp : S.processed = st.processed ++ d0)
    (ha : S.appendedStore = st.appendedStore ++ d0)
    (ht : S.trace = st.trace ++ d0.flatMap commitEffects)
    (hrec : ∃ Δ : List Item,
      (processLoop fetch analyze source_group max_items now rest S).processed
        = S.processed ++ Δ ∧
      (processLoop fetch analyze source_group max_items now rest S).appendedStore
        = S.appendedStore ++ Δ ∧
      (processLoop fetch analyze source_group max_items now rest S).trace
        = S.trace ++ Δ.flatMap commitEffects) :
    ∃ Δ : List Item,
      (processLoop fetch analyze source_group max_items now rest S).processed
        = st.processed ++ Δ ∧
      (processLoop fetch analyze source_group max_items now rest S).appendedStore
        = st.appendedStore ++ Δ ∧
      (processLoop fetch analyze source_group max_items now rest S).trace
        = st.trace ++ Δ.flatMap commitEffects := by
  obtain ⟨d, h1, h2, h3⟩ := hrec
  refine ⟨d0 ++ d, ?_, ?_, ?_⟩
  · rw [h1, hp, List.append_assoc]
  · rw [h2, ha, List.append_assoc]
  · rw [h3, ht, List.append_assoc, List.flatMap_append]

/-- The processing loop only ever extends `processed`, `appendedStore` and
`trace`, with the same committed items, and every COMMIT contributes its
two effects in source order: the store append first, the index update
second. -/
theorem processLoop_spec (fetch : String → Option String)
    (analyze : String → Candidate → Option EnrichedItem)
    (source_group : String) (max_items : Nat) (now : String) :
    ∀ (cands : List Candidate) (st : GroupState), ∃ Δ : List Item,
      (processLoop fetch analyze source_group max_items now cands st).processed
        = st.processed ++ Δ ∧
      (processLoop fetch analyze source_group max_items now cands st).appendedStore
        = st.appendedStore ++ Δ ∧
      (processLoop fetch analyze source_group max_items now cands st).trace
        = st.trace ++ Δ.flatMap commitEffects := by
  intro cands
  induction cands with
  | nil =>
    intro st
    exact ⟨[], by simp [processLoop], by simp [processLoop], by simp [processLoop]⟩
  | cons candidate rest ih =>
    intro st
    rw [processLoop]
    dsimp only
    by_cases hmax : max_items ≤ st.processed.length
    · rw [if_pos hmax]
      exact ⟨[], by simp, by simp, by simp⟩
    · rw [if_neg hmax]
      by_cases hdup : is_duplicate candidate.url st.index = true
      · rw [if_pos hdup]
        exact processChain [] (by simp) (by simp) (by simp) (ih _)
      · rw [if_neg hdup]
        cases hana : analyze ((fetch candidate.url).getD "") candidate with
        | none =>
          exact processChain [] (by simp) (by simp) (by simp) (ih _)
        | some enrichment =>
          exact processChain
            [build_complete_item candidate.url (normalize_url candidate.url)
              (compute_item_id candidate.url) source_group
              candidate.source_key candidate.source_name
              candidate.source_type candidate.publisher candidate.title
              candidate.pub_date candidate.language
              ((fetch candidate.url).getD "").length enrichment now]
            (by simp) (by simp)
            (by simp [commitEffects, build_complete_item, List.append_assoc])
            (ih _)

/-- Helper: a trace made of well-formed COMMIT pairs satisfies the
append-first ordering, whatever ids were already appended. -/
theorem abiGo_flatMap (d : List Item) :
    ∀ seen : List String, abiGo seen (d.flatMap commitEffects) = true := by
  induction d with
  | nil => intro seen; rfl
  | cons item rest ih =>
    intro seen
    simp only [List.flatMap_cons, commitEffects, List.cons_append,
      List.nil_append, abiGo]
    simp only [List.contains_cons, beq_self_eq_true, Bool.true_or,
      Bool.true_and]
    exact ih _

/-- The items appended to the monthly store by one source group are
exactly the processed items. -/
theorem process_source_group_appendedStore (fetch : String → Option String)
    (analyze : String → Candidate → Option EnrichedItem)
    (source_group : String) (max_items : Nat) (index : Index) (now : String)
    (candidates : List Candidate) :
    (process_source_group fetch analyze source_group max_items index now
      candidates).appendedStore =
    (process_source_group fetch analyze source_group max_items index now
      candidates).processed := by
  obtain ⟨d, h1, h2, h3⟩ := processLoop_spec fetch analyze source_group
    max_items now candidates
    { processed := [], duplicates := 0, errors := [], index := index,
      appendedStore := [], trace := [] }
  simp only [process_source_group]
  rw [h1, h2]

/-- C2 counterexample: a concrete run that commits one candidate produces
the trace `[append, addIndex]`; the index is not updated before the append,
refuting the claimed order. -/
theorem C2_counterexample :
    (process_source_group (fun _ => some "content text")
      (fun _ _ => some cexEnrichment) "high" 20 [] "2024-01-15T09:00:00+09:00"
      [cexCandidate]).processed.length = 1 ∧
    indexUpdatedBeforeAppend
      (process_source_group (fun _ => some "content text")
        (fun _ _ => some cexEnrichment) "high" 20 []
        "2024-01-15T09:00:00+09:00" [cexCandidate]).trace = false := by
  constructor <;> rfl

/-- C2 (amended): in the orchestrator's COMMIT step, for every candidate
that is committed, the Record is appended to the monthly store
(`append_item`) before the Index is updated (`add_to_index`): the trace of
every run is exactly the committed items' `[append, addIndex]` pairs in
that order, and consequently every index update is preceded by the append
of the same item id. -/
theorem C2_append_before_index_update (fetch : String → Option String)
    (analyze : String → Candidate → Option EnrichedItem)
    (source_group : String) (max_items : Nat) (index : Index) (now : String)
    (candidates : List Candidate) :
    (process_source_group fetch analyze source_group max_items index now
        candidates).trace =
      (process_source_group fetch analyze source_group max_items index now
        candidates).processed.flatMap commitEffects ∧
    appendedBeforeIndexUpdate
      (process_source_group fetch analyze source_group max_items index now
        candidates).trace = true := by
  obtain ⟨d, h1, h2, h3⟩ := processLoop_spec fetch analyze source_group
    max_items now candidates
    { processed := [], duplicates := 0, errors := [], index := index,
      appendedStore := [], trace := [] }
  constructor
  · simp only [process_source_group]
    rw [h3, h1]
    simp
  · simp only [process_source_group]
    rw [h3]
    simpa [appendedBeforeIndexUpdate] using abiGo_flatMap d []

/-! ## Claim C6 -/

/-- C6 counterexample: a run in which zero candidates reach COMMIT in
either source group, while the month partition already holds an item
observed on the same date from an earlier run, sends the regular daily
notification, not the distinct no-updates notification. -/
theorem C6_counterexample :
    (run_daily_model (fun _ => none) (fun _ _ => none) [priorItem] [] [] []
      "2024-01-15" "2024-01-15T09:00:00+09:00").highStats.processed = [] ∧
    (run_daily_model (fun _ => none) (fun _ _ => none) [priorItem] [] [] []
      "2024-01-15" "2024-01-15T09:00:00+09:00").trendStats.processed = [] ∧
    (run_daily_model (fun _ => none) (fun _ _ => none) [priorItem] [] [] []
      "2024-01-15" "2024-01-15T09:00:00+09:00").notification
        = NotificationChoice.daily ∧
    ¬ (run_daily_model (fun _ => none) (fun _ _ => none) [priorItem] [] [] []
      "2024-01-15" "2024-01-15T09:00:00+09:00").notification
        = NotificationChoice.noUpdates := by
  exact ⟨rfl, rfl, rfl, fun h => NotificationChoice.noConfusion h⟩

/-- C6 (amended): the run chooses the no-updates notification exactly when
`get_items_for_date` finds no item observed on the date — this counts
records stored by earlier runs on the same date, not only this run's; in
particular a run that processes zero new items sends the no-updates
notification provided no earlier run stored an item observed on that
date. -/
theorem C6_no_updates_notification (fetch : String → Option String)
    (analyze : String → Candidate → Option EnrichedItem)
    (priorMonthItems : List Item) (index0 : Index)
    (candsHigh candsTrend : List Candidate) (date_str now : String) :
    ((run_daily_model fetch analyze priorMonthItems index0 candsHigh
        candsTrend date_str now).notification = NotificationChoice.noUpdates ↔
      (run_daily_model fetch analyze priorMonthItems index0 candsHigh
        candsTrend date_str now).high_items = [] ∧
      (run_daily_model fetch analyze priorMonthItems index0 candsHigh
        candsTrend date_str now).trend_items = []) ∧
    ((run_daily_model fetch analyze priorMonthItems index0 candsHigh
        candsTrend date_str now).highStats.processed = [] →
      (run_daily_model fetch analyze priorMonthItems index0 candsHigh
        candsTrend date_str now).trendStats.processed = [] →
      priorMonthItems.filter
        (fun item => strStartsWith item.observed_at date_str) = [] →
      (run_daily_model fetch analyze priorMonthItems index0 candsHigh
        candsTrend date_str now).notification = NotificationChoice.noUpdates) := by
  constructor
  · simp only [run_daily_model]
    by_cases hcond :
      (get_items_for_date date_str (priorMonthItems ++
        (process_source_group fetch analyze "high" MAX_HIGH_TRUST_ITEMS
          index0 now candsHigh).appendedStore ++
        (process_source_group fetch analyze "trend" MAX_TREND_ITEMS
          (process_source_group fetch analyze "high" MAX_HIGH_TRUST_ITEMS
            index0 now candsHigh).index now candsTrend).appendedStore)).1 ≠ [] ∨
      (get_items_for_date date_str (priorMonthItems ++
        (process_source_group fetch analyze "high" MAX_HIGH_TRUST_ITEMS
          index0 now candsHigh).appendedStore ++
        (process_source_group fetch analyze "trend" MAX_TREND_ITEMS
          (process_source_group fetch analyze "high" MAX_HIGH_TRUST_ITEMS
            index0 now candsHigh).index now candsTrend).appendedStore)).2 ≠ []
    · rw [if_pos hcond]
      constructor
      · intro h; exact NotificationChoice.noConfusion h
      · rintro ⟨h1, h2⟩
        rcases hcond with hc | hc
        · exact absurd h1 hc
        · exact absurd h2 hc
    · rw [if_neg hcond]
      push_neg at hcond
      exact ⟨fun _ => ⟨hcond.1, hcond.2⟩, fun _ => rfl⟩
  · intro hph hpt hprior
    simp only [run_daily_model] at hph hpt ⊢
    have happh := process_source_group_appendedStore fetch analyze "high"
      MAX_HIGH_TRUST_ITEMS index0 now candsHigh
    have happt := process_source_group_appendedStore fetch analyze "trend"
      MAX_TREND_ITEMS (process_source_group fetch analyze "high"
        MAX_HIGH_TRUST_ITEMS index0 now candsHigh).index now candsTrend
    rw [hph] at happh
    rw [hpt] at happt
    rw [happh, happt]
    have hall : ∀ item ∈ priorMonthItems,
        ¬ (strStartsWith item.observed_at date_str = true) := by
      intro item hmem
      exact (List.filter_eq_nil_iff.mp hprior) item hmem
    have h1 : (get_items_for_date date_str (priorMonthItems ++ [] ++ [])).1 = [] := by
      simp only [List.append_nil, get_items_for_date]
      refine List.filter_eq_nil_iff.mpr ?_
      intro item hmem
      simp only [Bool.and_eq_true, decide_eq_true_eq, not_and]
      intro hst
      exact absurd hst (hall item hmem)
    have h2 : (get_items_for_date date_str (priorMonthItems ++ [] ++ [])).2 = [] := by
      simp only [List.append_nil, get_items_for_date]
      refine List.filter_eq_nil_iff.mpr ?_
      intro item hmem
      simp only [Bool.and_eq_true, decide_eq_true_eq, not_and]
      intro hst
      exact absurd hst (hall item hmem)
    rw [if_neg]
    push_neg
    exact ⟨h1, h2⟩

/-- Witness for C6 (amended): a run with no candidates and an empty prior
partition sends the no-updates notification. -/
theorem C6_witness :
    (run_daily_model (fun _ => none) (fun _ _ => none) [] [] [] []
      "2024-01-15" "2024-01-15T09:00:00+09:00").notification
      = NotificationChoice.noUpdates :=
  (C6_no_updates_notification (fun _ => none) (fun _ _ => none) [] [] [] []
    "2024-01-15" "2024-01-15T09:00:00+09:00").2 rfl rfl rfl

/-! ## Claim C10 -/

theorem splitOnChar_of_not_mem {c : Char} :
    ∀ {f : List Char}, c ∉ f → splitOnChar c f = [f] := by
  intro f
  induction f with
  | nil => intro _; rfl
  | cons x rest ih =>
    intro h
    have hx : ¬ x = c := fun hxc => h (hxc ▸ List.mem_cons_self x rest)
    have hrest : c ∉ rest := fun hr => h (List.mem_cons_of_mem x hr)
    rw [splitOnChar, if_neg hx, ih hrest]

theorem splitOnChar_append_cons {c : Char} :
    ∀ (f t : List Char), c ∉ f →
      splitOnChar c (f ++ c :: t) = f :: splitOnChar c t := by
  intro f
  induction f with
  | nil =>
    intro t _
    simp only [List.nil_append]
    rw [splitOnChar, if_pos rfl]
  | cons x rest ih =>
    intro t h
    have hx : ¬ x = c := fun hxc => h (hxc ▸ List.mem_cons_self x rest)
    have hrest : c ∉ rest := fun hr => h (List.mem_cons_of_mem x hr)
    rw [List.cons_append, splitOnChar, if_neg hx, ih t hrest]

theorem splitOnChar_joinFields {c : Char} :
    ∀ (fs : List (List Char)), fs ≠ [] → (∀ f ∈ fs, c ∉ f) →
      splitOnChar c (joinFields c fs) = fs := by
  intro fs
  induction fs with
  | nil => intro h; exact absurd rfl h
  | cons f rest ih =>
    intro _ hall
    cases rest with
    | nil =>
      exact splitOnChar_of_not_mem (hall f (List.mem_cons_self f []))
    | cons g rest' =>
      rw [joinFields,
        splitOnChar_append_cons _ _ (hall f (List.mem_cons_self f _)),
        ih (by simp) (fun x hx => hall x (List.mem_cons_of_mem f hx))]

theorem findIdx?_append_last :
    ∀ (k : List Char), '=' ∉ k → ∀ i : Nat,
      List.findIdx? (fun c => c = '=') (k ++ ['=']) i = some (i + k.length) := by
  intro k
  induction k with
  | nil =>
    intro _ i
    simp [List.findIdx?]
  | cons x rest ih =>
    intro h i
    have hx : ¬ x = '=' := fun hxc => h (hxc ▸ List.mem_cons_self x rest)
    have hrest : '=' ∉ rest := fun hr => h (List.mem_cons_of_mem x hr)
    rw [List.cons_append, List.findIdx?_cons]
    simp only [decide_eq_true_eq]
    rw [if_neg hx, ih hrest (i + 1)]
    simp only [List.length_cons]
    congr 1
    omega

/-- A field with a key and an empty value is skipped by `parse_qsl` with
`keep_blank_values=False`. -/
theorem parseField_blank_value {k : List Char} (h : '=' ∉ k) :
    parseField (k ++ ['=']) = none := by
  have hne : ¬ (k ++ ['='] = []) := by simp
  have hidx : List.findIdx? (fun c => c = '=') (k ++ ['=']) 0
      = some (0 + k.length) := findIdx?_append_last k h 0
  have hdrop : (k ++ ['=']).drop (k.length + 1) = [] := by
    have hlen : k.length + 1 = (k ++ ['=']).length := by simp
    rw [hlen, List.drop_length]
  simp only [Nat.zero_add] at hidx
  rw [parseField, if_neg hne]
  rw [hidx]
  simp [hdrop]

/-- C10: `normalize_url` drops every query parameter whose value is empty,
even when its key is not on the tracking denylist: inserting a blank-valued
field into a query changes neither `parse_qsl` nor the normalized URL, and
in particular `http://example.com/a?a=1&b=` and `http://example.com/a?a=1`
normalize to the same string, receive the same ItemID and deduplicate
against each other. -/
theorem C10_blank_valued_params_dropped :
    (∀ (fields1 fields2 : List (List Char)) (k : List Char),
      '=' ∉ k → '&' ∉ k →
      (∀ f ∈ fields1 ++ fields2, '&' ∉ f) →
      parse_qsl (String.mk (joinFields '&' (fields1 ++ (k ++ ['=']) :: fields2)))
        = parse_qsl (String.mk (joinFields '&' (fields1 ++ fields2)))) ∧
    (∀ (u1 u2 : String) (p1 p2 : UrlParts),
      urlparseE u1 = some p1 → urlparseE u2 = some p2 →
      p1.scheme = p2.scheme → p1.netloc = p2.netloc → p1.path = p2.path →
      parse_qsl p1.query = parse_qsl p2.query →
      normalize_url u1 = normalize_url u2 ∧
        compute_item_id u1 = compute_item_id u2) ∧
    normalize_url "http://example.com/a?a=1&b="
      = normalize_url "http://example.com/a?a=1" ∧
    compute_item_id "http://example.com/a?a=1&b="
      = compute_item_id "http://example.com/a?a=1" ∧
    is_duplicate "http://example.com/a?a=1"
      (add_to_index [] (compute_item_id "http://example.com/a?a=1&b=")
        "Source" "Title" "now") = true := by
  have hnorm : normalize_url "http://example.com/a?a=1&b="
      = normalize_url "http://example.com/a?a=1" := by decide
  have hid : compute_item_id "http://example.com/a?a=1&b="
      = compute_item_id "http://example.com/a?a=1" := by
    unfold compute_item_id
    rw [hnorm]
  have hdup : is_duplicate "http://example.com/a?a=1"
      (add_to_index [] (compute_item_id "http://example.com/a?a=1&b=")
        "Source" "Title" "now") = true := by
    simp [is_duplicate, add_to_index, hid]
  refine ⟨?_, ?_, hnorm, hid, hdup⟩
  · intro fields1 fields2 k hk hkamp hall
    have hblank : parseField (k ++ ['=']) = none := parseField_blank_value hk
    have hallmid : ∀ f ∈ fields1 ++ (k ++ ['=']) :: fields2, '&' ∉ f := by
      intro f hf
      rcases List.mem_append.mp hf with h1 | h2
      · exact hall f (List.mem_append.mpr (Or.inl h1))
      · rcases List.mem_cons.mp h2 with rfl | h3
        · intro hamp
          rcases List.mem_append.mp hamp with ha | ha
          · exact hkamp ha
          · simp at ha
        · exact hall f (List.mem_append.mpr (Or.inr h3))
    show (splitOnChar '&'
        (joinFields '&' (fields1 ++ (k ++ ['=']) :: fields2))).filterMap parseField
      = (splitOnChar '&' (joinFields '&' (fields1 ++ fields2))).filterMap parseField
    rw [splitOnChar_joinFields _ (by simp) hallmid]
    by_cases hfs : fields1 ++ fields2 = []
    · have h1 : fields1 = [] := by
        cases fields1 with
        | nil => rfl
        | cons a b => simp at hfs
      have h2 : fields2 = [] := by
        rw [h1] at hfs
        simpa using hfs
      subst h1; subst h2
      simp only [List.nil_append]
      rw [List.filterMap_cons, hblank]
      rfl
    · rw [splitOnChar_joinFields _ hfs hall]
      simp [List.filterMap_append, List.filterMap_cons, hblank]
  · intro u1 u2 p1 p2 hu1 hu2 hs hn hp hq
    have hnu : normalize_url u1 = normalize_url u2 := by
      simp only [normalize_url, hu1, hu2]
      simp only [normalizeParts]
      rw [hs, hn, hp]
      simp only [normQuery, parse_qs]
      rw [hq]
    exact ⟨hnu, by unfold compute_item_id; rw [hnu]⟩

/-- Witness for C10 at the concrete query `a=1&b=`: inserting the blank
field `b=` after `a=1` leaves `parse_qsl` unchanged. -/
theorem C10_witness :
    ('=' ∉ ['b'] ∧ '&' ∉ ['b'] ∧
      (∀ f ∈ [['a', '=', '1']] ++ ([] : List (List Char)), '&' ∉ f)) ∧
    parse_qsl (String.mk (joinFields '&'
        ([['a', '=', '1']] ++ (['b'] ++ ['=']) :: [])))
      = parse_qsl (String.mk (joinFields '&' ([['a', '=', '1']] ++ []))) :=
  ⟨⟨by decide, by decide, by decide⟩,
   C10_blank_valued_params_dropped.1 [['a', '=', '1']] [] ['b']
     (by decide) (by decide) (by decide)⟩

/-! ## Claim C1: grouping, filtering and sorting lemmas -/

theorem firstSeenKeysGo_eq :
    ∀ (fuel : Nat), ∀ (l : List (List Nat)), l.length ≤ fuel →
      firstSeenKeysGo fuel l = firstSeenKeys l := by
  intro fuel
  induction fuel using Nat.strong_induction_on with
  | _ fuel ih =>
    intro l hl
    cases fuel with
    | zero =>
      cases l with
      | nil => rfl
      | cons k rest => simp at hl
    | succ n =>
      cases l with
      | nil => rfl
      | cons k rest =>
        have hr : rest.length ≤ n := by
          simpa using hl
        have hf : (rest.filter (· ≠ k)).length ≤ n :=
          le_trans (List.length_filter_le _ _) hr
        show k :: firstSeenKeysGo n (rest.filter (· ≠ k)) = firstSeenKeys (k :: rest)
        rw [ih n (Nat.lt_succ_self n) _ hf]
        show _ = firstSeenKeysGo (rest.length + 1) (k :: rest)
        show _ = k :: firstSeenKeysGo rest.length (rest.filter (· ≠ k))
        rw [ih rest.length (Nat.lt_succ_of_le hr) _ (List.length_filter_le _ _)]

theorem firstSeenKeys_cons (k : List Nat) (rest : List (List Nat)) :
    firstSeenKeys (k :: rest) = k :: firstSeenKeys (rest.filter (· ≠ k)) := by
  show firstSeenKeysGo (rest.length + 1) (k :: rest) = _
  show k :: firstSeenKeysGo rest.length (rest.filter (· ≠ k)) = _
  rw [firstSeenKeysGo_eq rest.length _ (List.length_filter_le _ _)]

theorem firstSeenKeys_subset :
    ∀ (n : Nat) (ks : List (List Nat)), ks.length ≤ n →
      ∀ x ∈ firstSeenKeys ks, x ∈ ks := by
  intro n
  induction n with
  | zero =>
    intro ks h x hx
    cases ks with
    | nil => cases hx
    | cons k rest => simp at h
  | succ n ih =>
    intro ks h x hx
    cases ks with
    | nil => cases hx
    | cons k rest =>
      rw [firstSeenKeys_cons] at hx
      rcases List.mem_cons.mp hx with rfl | hx'
      · exact List.mem_cons_self _ _
      · have hlen : (rest.filter (· ≠ k)).length ≤ n :=
          le_trans (List.length_filter_le _ _) (by simpa using h)
        exact List.mem_cons_of_mem _
          (List.mem_of_mem_filter (ih _ hlen x hx'))

theorem firstSeenKeys_filter (p : List Nat → Bool) :
    ∀ (n : Nat) (ks : List (List Nat)), ks.length ≤ n →
      firstSeenKeys (ks.filter p) = (firstSeenKeys ks).filter p := by
  intro n
  induction n with
  | zero =>
    intro ks h
    cases ks with
    | nil => rfl
    | cons k rest => simp at h
  | succ n ih =>
    intro ks h
    cases ks with
    | nil => rfl
    | cons k rest =>
      have hr : rest.length ≤ n := by simpa using h
      by_cases hp : p k = true
      · rw [List.filter_cons_of_pos hp, firstSeenKeys_cons, firstSeenKeys_cons,
          List.filter_cons_of_pos hp]
        congr 1
        rw [← ih (rest.filter (· ≠ k))
            (le_trans (List.length_filter_le _ _) hr)]
        rw [List.filter_filter, List.filter_filter]
        exact congrArg firstSeenKeys
          (List.filter_congr (fun a _ => Bool.and_comm _ _))
      · have hp' : ¬ p k = true := hp
        have hpk : p k = false := by
          cases hb : p k with
          | false => rfl
          | true => exact absurd hb hp'
        rw [List.filter_cons_of_neg hp', firstSeenKeys_cons,
          List.filter_cons_of_neg hp']
        rw [← ih (rest.filter (· ≠ k))
            (le_trans (List.length_filter_le _ _) hr)]
        rw [List.filter_filter]
        refine congrArg firstSeenKeys (List.filter_congr ?_)
        intro a ha
        by_cases hak : a = k
        · subst hak
          simp [hpk]
        · simp [hak]

theorem valuesFor_filter (p : List Nat → Bool) (k : List Nat)
    (hk : p k = true) :
    ∀ ps : List (List Nat × List Nat),
      valuesFor k (ps.filter (fun kv => p kv.1)) = valuesFor k ps := by
  intro ps
  induction ps with
  | nil => rfl
  | cons kv rest ih =>
    simp only [valuesFor, List.filterMap_cons, List.filter_cons] at ih ⊢
    by_cases hkv : kv.1 = k
    · simp only [hkv, hk, if_true, List.filterMap_cons, if_pos rfl, ih]
    · by_cases hpv : p kv.1 = true
      · simp only [hpv, if_true, List.filterMap_cons, if_neg hkv, ih]
      · simp only [if_neg hpv, if_neg hkv, ih]

theorem valuesFor_eq_nil (k : List Nat) :
    ∀ ps : List (List Nat × List Nat), k ∉ ps.map Prod.fst →
      valuesFor k ps = [] := by
  intro ps
  induction ps with
  | nil => intro _; rfl
  | cons kv rest ih =>
    intro h
    have h1 : ¬ kv.1 = k := by
      intro he
      exact h (by simp [he])
    show List.filterMap _ (kv :: rest) = []
    rw [List.filterMap_cons]
    simp only [if_neg h1]
    exact ih (fun hm => h (List.mem_cons_of_mem _ hm))

/-- Filtering the tracking keys commutes with the grouping of `parse_qs`. -/
theorem filterTracking_groupPairs (ps : List (List Nat × List Nat)) :
    filterTracking (groupPairs ps)
      = groupPairs (ps.filter (fun kv => isNonTracking kv.1)) := by
  unfold filterTracking groupPairs
  have hkeys : (ps.filter (fun kv => isNonTracking kv.1)).map Prod.fst
      = (ps.map Prod.fst).filter isNonTracking :=
    (@List.filter_map _ _ isNonTracking Prod.fst ps).symm
  rw [hkeys, firstSeenKeys_filter isNonTracking (ps.map Prod.fst).length _
    le_rfl]
  have hmapfil : ((firstSeenKeys (ps.map Prod.fst)).map
        (fun k => (k, valuesFor k ps))).filter (fun kv => isNonTracking kv.1)
      = ((firstSeenKeys (ps.map Prod.fst)).filter isNonTracking).map
        (fun k => (k, valuesFor k ps)) :=
    @List.filter_map _ _ (fun kv => isNonTracking kv.1)
      (fun k => (k, valuesFor k ps)) (firstSeenKeys (ps.map Prod.fst))
  rw [hmapfil]
  refine List.map_congr_left ?_
  intro k hk
  have hkt : isNonTracking k = true := List.of_mem_filter hk
  rw [valuesFor_filter isNonTracking k hkt ps]

/-- When every key occurs once, the `parse_qs` grouping is one singleton
value list per pair. -/
theorem groupPairs_of_nodup :
    ∀ ps : List (List Nat × List Nat), (ps.map Prod.fst).Nodup →
      groupPairs ps = ps.map (fun kv => (kv.1, [kv.2])) := by
  intro ps
  induction ps with
  | nil => intro _; rfl
  | cons kv rest ih =>
    intro hnd
    have hnotin : kv.1 ∉ rest.map Prod.fst := by
      intro hmem
      exact (List.nodup_cons.mp (by simpa using hnd)).1 hmem
    have hndrest : (rest.map Prod.fst).Nodup :=
      (List.nodup_cons.mp (by simpa using hnd)).2
    unfold groupPairs
    simp only [List.map_cons]
    rw [firstSeenKeys_cons]
    have hfe : (rest.map Prod.fst).filter (· ≠ kv.1) = rest.map Prod.fst := by
      refine List.filter_eq_self.mpr ?_
      intro a ha
      simp only [decide_eq_true_eq]
      intro hek
      exact hnotin (hek ▸ ha)
    rw [hfe, List.map_cons]
    have hvhead : valuesFor kv.1 (kv :: rest) = [kv.2] := by
      show List.filterMap _ (kv :: rest) = [kv.2]
      rw [@List.filterMap_cons_some _ _
        (fun kv2 : List Nat × List Nat =>
          if kv2.1 = kv.1 then some kv2.2 else none) kv rest kv.2 (by simp)]
      have hnil : List.filterMap
          (fun kv2 => if kv2.1 = kv.1 then some kv2.2 else none) rest = [] :=
        valuesFor_eq_nil kv.1 rest hnotin
      rw [hnil]
    rw [hvhead]
    congr 1
    have hrest : (firstSeenKeys (rest.map Prod.fst)).map
        (fun k => (k, valuesFor k (kv :: rest)))
        = (firstSeenKeys (rest.map Prod.fst)).map
          (fun k => (k, valuesFor k rest)) := by
      refine List.map_congr_left ?_
      intro k hk
      have hkrest : k ∈ rest.map Prod.fst :=
        firstSeenKeys_subset (rest.map Prod.fst).length _ le_rfl k hk
      have hne : ¬ kv.1 = k := by
        intro he
        exact hnotin (he ▸ hkrest)
      show (k, List.filterMap _ (kv :: rest)) = _
      rw [@List.filterMap_cons_none _ _
        (fun kv2 : List Nat × List Nat =>
          if kv2.1 = k then some kv2.2 else none) kv rest (by simp [hne])]
      rfl
    rw [hrest]
    have := ih hndrest
    unfold groupPairs at this
    exact this

/-! ### The Python `sorted` order on query items -/

instance : IsTotal (List Nat × List (List Nat)) qItemLe where
  total := by
    intro a b
    rcases lt_trichotomy a.1 b.1 with h | h | h
    · exact Or.inl (Or.inl h)
    · rcases le_total a.2 b.2 with h2 | h2
      · exact Or.inl (Or.inr ⟨h, h2⟩)
      · exact Or.inr (Or.inr ⟨h.symm, h2⟩)
    · exact Or.inr (Or.inl h)

instance : IsTrans (List Nat × List (List Nat)) qItemLe where
  trans := by
    intro a b c hab hbc
    rcases hab with h1 | ⟨h1e, h1l⟩
    · rcases hbc with h2 | ⟨h2e, h2l⟩
      · exact Or.inl (lt_trans h1 h2)
      · exact Or.inl (h2e ▸ h1)
    · rcases hbc with h2 | ⟨h2e, h2l⟩
      · exact Or.inl (h1e ▸ h2)
      · exact Or.inr ⟨h1e.trans h2e, le_trans h1l h2l⟩

instance : IsAntisymm (List Nat × List (List Nat)) qItemLe where
  antisymm := by
    intro a b hab hba
    rcases hab with h1 | ⟨h1e, h1l⟩
    · rcases hba with h2 | ⟨h2e, h2l⟩
      · exact absurd h2 (lt_asymm h1)
      · exact absurd h2e (ne_of_gt h1)
    · rcases hba with h2 | ⟨h2e, h2l⟩
      · exact absurd h1e (ne_of_gt h2)
      · exact Prod.ext h1e (le_antisymm h1l h2l)

/-- Python's `sorted` output is determined by the multiset of items. -/
theorem pySorted_perm_eq {l1 l2 : List (List Nat × List (List Nat))}
    (h : List.Perm l1 l2) : pySorted l1 = pySorted l2 :=
  List.eq_of_perm_of_sorted
    ((List.perm_insertionSort _ l1).trans
      (h.trans (List.perm_insertionSort _ l2).symm))
    (List.sorted_insertionSort _ _) (List.sorted_insertionSort _ _)

/-- The query normalization of `normalize_url` is invariant under
reordering of the surviving parameters, provided their keys are distinct. -/
theorem normQuery_eq_of_perm {q1 q2 : String}
    (hperm : List.Perm (remainingPairs q1) (remainingPairs q2))
    (hnd : ((remainingPairs q1).map Prod.fst).Nodup) :
    normQuery q1 = normQuery q2 := by
  have hnd2 : ((remainingPairs q2).map Prod.fst).Nodup :=
    ((hperm.map Prod.fst).nodup_iff).mp hnd
  have h1 : filterTracking (parse_qs q1)
      = (remainingPairs q1).map (fun kv => (kv.1, [kv.2])) := by
    show filterTracking (groupPairs (parse_qsl q1)) = _
    rw [filterTracking_groupPairs]
    exact groupPairs_of_nodup _ hnd
  have h2 : filterTracking (parse_qs q2)
      = (remainingPairs q2).map (fun kv => (kv.1, [kv.2])) := by
    show filterTracking (groupPairs (parse_qsl q2)) = _
    rw [filterTracking_groupPairs]
    exact groupPairs_of_nodup _ hnd2
  have hperm' : List.Perm ((remainingPairs q1).map (fun kv => (kv.1, [kv.2])))
      ((remainingPairs q2).map (fun kv => (kv.1, [kv.2]))) :=
    hperm.map _
  simp only [normQuery, h1, h2]
  by_cases hnil : (remainingPairs q1).map (fun kv => (kv.1, [kv.2])) = []
  · have hnil2 : (remainingPairs q2).map (fun kv => (kv.1, [kv.2])) = [] := by
      have := hperm'.length_eq
      rw [hnil] at this
      exact List.length_eq_zero.mp this.symm
    rw [hnil, hnil2]
  · have hnil2 : (remainingPairs q2).map (fun kv => (kv.1, [kv.2])) ≠ [] := by
      intro h0
      have := hperm'.length_eq
      rw [h0] at this
      exact hnil (List.length_eq_zero.mp this)
    rw [if_pos hnil, if_pos hnil2, pySorted_perm_eq hperm']

/-- C1 counterexample: two URLs whose remaining query parameters are a
permutation of each other — differing only in parameter order — normalize
to different strings, because the two values of the repeated key `a` keep
their relative order inside the grouped value list. -/
theorem C1_counterexample :
    urlparseE dupKeyUrl1 = some dupKeyParts1 ∧
    urlparseE dupKeyUrl2 = some dupKeyParts2 ∧
    normScheme dupKeyParts1.scheme = normScheme dupKeyParts2.scheme ∧
    normNetloc dupKeyParts1.netloc = normNetloc dupKeyParts2.netloc ∧
    normPath dupKeyParts1.path = normPath dupKeyParts2.path ∧
    List.Perm (remainingPairs dupKeyParts1.query)
      (remainingPairs dupKeyParts2.query) ∧
    normalize_url dupKeyUrl1 ≠ normalize_url dupKeyUrl2 := by
  exact ⟨by decide, by decide, rfl, rfl, rfl, by decide, by decide⟩

/-- C1 (amended): for every pair of raw URLs that differ only in
scheme/host casing, a leading `www.` prefix, trailing path slashes,
tracking query parameters, the fragment, or the order of the remaining
query parameters — provided those remaining parameters have pairwise
distinct keys — `normalize_url` produces identical output; in particular
the spec's example pair normalizes to the same string.  (Without the
distinct-key proviso the `C1_counterexample` pair refutes the original
statement.) -/
theorem C1_normalize_equivalence :
    (∀ (u1 u2 : String) (p1 p2 : UrlParts),
      urlparseE u1 = some p1 → urlparseE u2 = some p2 →
      normScheme p1.scheme = normScheme p2.scheme →
      normNetloc p1.netloc = normNetloc p2.netloc →
      normPath p1.path = normPath p2.path →
      List.Perm (remainingPairs p1.query) (remainingPairs p2.query) →
      ((remainingPairs p1.query).map Prod.fst).Nodup →
      normalize_url u1 = normalize_url u2) ∧
    normalize_url "http://WWW.Example.com/a/?utm_source=x&b=2&a=1#frag"
      = normalize_url "http://example.com/a?a=1&b=2" := by
  constructor
  · intro u1 u2 p1 p2 hu1 hu2 hs hn hp hq hnd
    simp only [normalize_url, hu1, hu2]
    simp only [normalizeParts]
    rw [hs, hn, hp, normQuery_eq_of_perm hq hnd]
  · decide

/-! ## Claim C3 -/

theorem isPrefixB_append_self : ∀ (l t : List Char), isPrefixB l (l ++ t) = true := by
  intro l t
  induction l with
  | nil => rfl
  | cons a as ih => simp [isPrefixB, ih]

theorem isInfixB_of_prefix {nd h : List Char} (hp : isPrefixB nd h = true) :
    isInfixB nd h = true := by
  cases h with
  | nil => exact hp
  | cons c rest => simp [isInfixB, hp]

theorem containsSub_self_append (p q r : String) :
    containsSub p ((p ++ q) ++ r) = true := by
  unfold containsSub
  rw [String.data_append, String.data_append, List.append_assoc]
  exact isInfixB_of_prefix (isPrefixB_append_self _ _)

/-- Every rendered list body starts with its own marker, so the marker
substring test succeeds on it. -/
theorem marker_in_body (lt d : String) (items : List Item) :
    containsSub (markerFor lt d) (build_list_comment_body lt d items) = true := by
  unfold build_list_comment_body
  dsimp only
  by_cases hi : items = []
  · rw [if_pos hi]
    simp only [List.cons_append, List.nil_append]
    rw [pyJoin]
    exact containsSub_self_append _ _ _
  · rw [if_neg hi]
    simp only [List.cons_append, List.nil_append]
    rw [pyJoin]
    exact containsSub_self_append _ _ _

/-- A map that preserves titles preserves the absence of a title. -/
theorem titles_ne_map {T : String} {f : Discussion → Discussion}
    (hf : ∀ x, (f x).title = x.title) {l : List Discussion}
    (h : ∀ disc ∈ l, disc.title ≠ T) :
    ∀ disc ∈ l.map f, disc.title ≠ T := by
  intro disc hd
  rcases List.mem_map.mp hd with ⟨x, hx, rfl⟩
  rw [hf]
  exact h x hx

theorem ensure_found_head (cat : String) (D : Discussion)
    (tail : List Discussion) (k : Nat) (d : String) (stats : Stats)
    (hT : D.title = titleFor d) :
    ensure_daily_discussion cat ⟨D :: tail, k⟩ d stats
      = some (⟨D.id, D.number, D.url⟩, ⟨D :: tail, k⟩) := by
  have ht : (D :: tail).take 50 = D :: tail.take 49 := rfl
  have hfd : find_daily_discussion ⟨D :: tail, k⟩ d
      = some ⟨D.id, D.number, D.url⟩ := by
    unfold find_daily_discussion
    dsimp only
    rw [ht, List.find?_cons_of_pos _ (by simp [hT])]
    rfl
  unfold ensure_daily_discussion
  rw [hfd]

theorem ensure_none_create (cat : String) (s0 : RemoteState) (d : String)
    (stats : Stats) (hcat : cat ≠ "")
    (hnone : find_daily_discussion s0 d = none) :
    ensure_daily_discussion cat s0 d stats
      = some (⟨s0.nextId, s0.nextId,
          "https://github.com/discussions/" ++ toString s0.nextId⟩,
        ⟨{ id := s0.nextId, number := s0.nextId,
            url := "https://github.com/discussions/" ++ toString s0.nextId,
            title := titleFor d,
            body := buildDailyDiscussionBody d stats,
            comments := [] } :: s0.discussions, s0.nextId + 1⟩) := by
  unfold ensure_daily_discussion
  rw [hnone]
  unfold create_daily_discussion
  rw [if_neg hcat]

theorem find_comment_head (D : Discussion) (tail : List Discussion) (k : Nat)
    (m : String) (discId : Nat) (hid : D.id = discId) :
    find_comment_by_marker ⟨D :: tail, k⟩ discId m
      = (D.comments.take 20).find? (fun c => containsSub m c.body) := by
  unfold find_comment_by_marker
  dsimp only
  rw [List.find?_cons_of_pos _ (by simp [hid])]

theorem upsert_creates (s : RemoteState) (discId : Nat) (lt d : String)
    (items : List Item)
    (hnone : find_comment_by_marker s discId (markerFor lt d) = none) :
    upsert_list_comment s discId lt d items
      = ⟨s.discussions.map (fun disc =>
          if disc.id = discId then
            { disc with comments := disc.comments ++
                [⟨s.nextId, build_list_comment_body lt d items⟩] }
          else disc), s.nextId + 1⟩ := by
  unfold upsert_list_comment
  dsimp only
  rw [hnone]
  rfl

theorem upsert_updates (s : RemoteState) (discId : Nat) (lt d : String)
    (items : List Item) (c : DComment)
    (hfound : find_comment_by_marker s discId (markerFor lt d) = some c) :
    upsert_list_comment s discId lt d items
      = update_discussion_comment s c.id (build_list_comment_body lt d items) := by
  unfold upsert_list_comment
  dsimp only
  rw [hfound]

/-- C3 counterexample: starting from an empty remote state, publish a HIGH
list whose single item's title contains the TREND marker text.  After the
first run the thread has one comment; the second run creates a second
comment instead of updating, and the final thread holds two comments that
both contain the TREND marker — refuting both the at-most-one-marked-
comment part and the updates-in-place part of the claim. -/
theorem C3_counterexample :
    ((runReconcile "C" "2024-01-15" ⟨0, 0, 0, []⟩ [injectionItem] []
        ⟨[], 0⟩).map
      (fun s1 => s1.discussions.map (fun disc => disc.comments.length)))
      = some [1] ∧
    ((runReconcile "C" "2024-01-15" ⟨0, 0, 0, []⟩ [injectionItem] []
        ⟨[], 0⟩).bind
      (runReconcile "C" "2024-01-15" ⟨0, 0, 0, []⟩ [injectionItem] [])).map
      (fun s2 => s2.discussions.map (fun disc =>
        (disc.comments.length,
         disc.comments.countP (fun c =>
           containsSub (markerFor "TREND" "2024-01-15") c.body))))
      = some [(2, 2)] := by
  constructor <;> rfl

/-- Witness for C1 (amended) at the spec's example pair. -/
theorem C1_witness :
    (urlparseE "http://WWW.Example.com/a/?utm_source=x&b=2&a=1#frag"
        = some specExampleParts1 ∧
      urlparseE "http://example.com/a?a=1&b=2" = some specExampleParts2 ∧
      List.Perm (remainingPairs specExampleParts1.query)
        (remainingPairs specExampleParts2.query) ∧
      ((remainingPairs specExampleParts1.query).map Prod.fst).Nodup) ∧
    normalize_url "http://WWW.Example.com/a/?utm_source=x&b=2&a=1#frag"
      = normalize_url "http://example.com/a?a=1&b=2" :=
  ⟨⟨by decide, by decide, by decide, by decide⟩,
   C1_normalize_equivalence.1
     "http://WWW.Example.com/a/?utm_source=x&b=2&a=1#frag"
     "http://example.com/a?a=1&b=2" specExampleParts1 specExampleParts2
     (by decide) (by decide) (by decide) (by decide) (by decide)
     (by decide) (by decide)⟩

/-- C3 (amended): for every date, stats, item lists and starting remote state
that carries no discussion already titled for the date, provided the category
id is non-empty and neither rendered list body contains the other list type's
marker, running the reconciler protocol (`ensure_daily_discussion`, then
`upsert_list_comment` for HIGH and for TREND) twice succeeds, the second run
creates nothing (`nextId` unchanged), each run leaves exactly one discussion
titled for the date, and that discussion holds exactly the two comments
created by the first run with at most one comment containing each list
type's marker — the second run updated in place. -/
theorem C3_reconciler_idempotent
    (category_id d : String) (stats : Stats)
    (itemsH itemsT : List Item) (s0 : RemoteState)
    (hcat : category_id ≠ "")
    (h0 : ∀ disc ∈ s0.discussions, disc.title ≠ titleFor d)
    (hH : containsSub (markerFor "TREND" d)
        (build_list_comment_body "HIGH" d itemsH) = false)
    (hT : containsSub (markerFor "HIGH" d)
        (build_list_comment_body "TREND" d itemsT) = false) :
    ∃ s1 s2 : RemoteState,
      runReconcile category_id d stats itemsH itemsT s0 = some s1 ∧
      runReconcile category_id d stats itemsH itemsT s1 = some s2 ∧
      s2.nextId = s1.nextId ∧
      s1.discussions.countP (fun (disc : Discussion) => disc.title = titleFor d) = 1 ∧
      s2.discussions.countP (fun (disc : Discussion) => disc.title = titleFor d) = 1 ∧
      ∀ disc ∈ s2.discussions, disc.title = titleFor d →
        disc.comments.map DComment.id = [s0.nextId + 1, s0.nextId + 2] ∧
        disc.comments.countP
          (fun (c : DComment) => containsSub (markerFor "HIGH" d) c.body) ≤ 1 ∧
        disc.comments.countP
          (fun (c : DComment) => containsSub (markerFor "TREND" d) c.body) ≤ 1 := by
  have hfnone : find_daily_discussion s0 d = none := by
    have hfn : (s0.discussions.take 50).find?
        (fun x => x.title = titleFor d) = none :=
      List.find?_eq_none.mpr
        (fun x hx => by simpa using h0 x (List.mem_of_mem_take hx))
    unfold find_daily_discussion
    rw [hfn]
    rfl
  have hens1 := ensure_none_create category_id s0 d stats hcat hfnone
  have hfc1 : find_comment_by_marker
      ⟨{ id := s0.nextId, number := s0.nextId,
          url := "https://github.com/discussions/" ++ toString s0.nextId,
          title := titleFor d, body := buildDailyDiscussionBody d stats,
          comments := [] } :: s0.discussions, s0.nextId + 1⟩
      s0.nextId (markerFor "HIGH" d) = none := by
    rw [find_comment_head _ _ _ _ _ rfl]
    rfl
  have hup1 : upsert_list_comment
      ⟨{ id := s0.nextId, number := s0.nextId,
          url := "https://github.com/discussions/" ++ toString s0.nextId,
          title := titleFor d, body := buildDailyDiscussionBody d stats,
          comments := [] } :: s0.discussions, s0.nextId + 1⟩
      s0.nextId "HIGH" d itemsH
      = ⟨{ id := s0.nextId, number := s0.nextId,
            url := "https://github.com/discussions/" ++ toString s0.nextId,
            title := titleFor d, body := buildDailyDiscussionBody d stats,
            comments := [⟨s0.nextId + 1,
              build_list_comment_body "HIGH" d itemsH⟩] } ::
          s0.discussions.map (fun (disc : Discussion) =>
            if disc.id = s0.nextId then
              { disc with comments := disc.comments ++
                  [⟨s0.nextId + 1, build_list_comment_body "HIGH" d itemsH⟩] }
            else disc),
          s0.nextId + 2⟩ := by
    rw [upsert_creates _ _ _ _ _ hfc1]
    simp
  have hfc2 : find_comment_by_marker
      ⟨{ id := s0.nextId, number := s0.nextId,
          url := "https://github.com/discussions/" ++ toString s0.nextId,
          title := titleFor d, body := buildDailyDiscussionBody d stats,
          comments := [⟨s0.nextId + 1,
            build_list_comment_body "HIGH" d itemsH⟩] } ::
        s0.discussions.map (fun (disc : Discussion) =>
          if disc.id = s0.nextId then
            { disc with comments := disc.comments ++
                [⟨s0.nextId + 1, build_list_comment_body "HIGH" d itemsH⟩] }
          else disc),
        s0.nextId + 2⟩
      s0.nextId (markerFor "TREND" d) = none := by
    rw [find_comment_head _ _ _ _ _ rfl]
    show List.find? _ [(⟨s0.nextId + 1,
      build_list_comment_body "HIGH" d itemsH⟩ : DComment)] = none
    rw [List.find?_cons_of_neg _ (by simp [hH])]
    rfl
  have hup2 : upsert_list_comment
      ⟨{ id := s0.nextId, number := s0.nextId,
          url := "https://github.com/discussions/" ++ toString s0.nextId,
          title := titleFor d, body := buildDailyDiscussionBody d stats,
          comments := [⟨s0.nextId + 1,
            build_list_comment_body "HIGH" d itemsH⟩] } ::
        s0.discussions.map (fun (disc : Discussion) =>
          if disc.id = s0.nextId then
            { disc with comments := disc.comments ++
                [⟨s0.nextId + 1, build_list_comment_body "HIGH" d itemsH⟩] }
          else disc),
        s0.nextId + 2⟩
      s0.nextId "TREND" d itemsT
      = ⟨{ id := s0.nextId, number := s0.nextId,
            url := "https://github.com/discussions/" ++ toString s0.nextId,
            title := titleFor d, body := buildDailyDiscussionBody d stats,
            comments := [⟨s0.nextId + 1,
                build_list_comment_body "HIGH" d itemsH⟩,
              ⟨s0.nextId + 2, build_list_comment_body "TREND" d itemsT⟩] } ::
          (s0.discussions.map (fun (disc : Discussion) =>
            if disc.id = s0.nextId then
              { disc with comments := disc.comments ++
                  [⟨s0.nextId + 1, build_list_comment_body "HIGH" d itemsH⟩] }
            else disc)).map (fun (disc : Discussion) =>
            if disc.id = s0.nextId then
              { disc with comments := disc.comments ++
                  [⟨s0.nextId + 2, build_list_comment_body "TREND" d itemsT⟩] }
            else disc),
          s0.nextId + 3⟩ := by
    rw [upsert_creates _ _ _ _ _ hfc2]
    simp
  have hrun1 : runReconcile category_id d stats itemsH itemsT s0
      = some ⟨
        { id := s0.nextId, number := s0.nextId,
            url := "https://github.com/discussions/" ++ toString s0.nextId,
            title := titleFor d, body := buildDailyDiscussionBody d stats,
            comments := [⟨s0.nextId + 1,
                build_list_comment_body "HIGH" d itemsH⟩,
              ⟨s0.nextId + 2, build_list_comment_body "TREND" d itemsT⟩] } ::
          (s0.discussions.map (fun (disc : Discussion) =>
            if disc.id = s0.nextId then
              { disc with comments := disc.comments ++
                  [⟨s0.nextId + 1, build_list_comment_body "HIGH" d itemsH⟩] }
            else disc)).map (fun (disc : Discussion) =>
            if disc.id = s0.nextId then
              { disc with comments := disc.comments ++
                  [⟨s0.nextId + 2, build_list_comment_body "TREND" d itemsT⟩] }
            else disc),
          s0.nextId + 3⟩ := by
    unfold runReconcile
    rw [hens1]
    dsimp only
    rw [hup1, hup2]
  have h21 : ¬ (s0.nextId + 2 = s0.nextId + 1) := by omega
  have h12 : ¬ (s0.nextId + 1 = s0.nextId + 2) := by omega
  have hens2 : ensure_daily_discussion category_id
      ⟨{ id := s0.nextId, number := s0.nextId,
          url := "https://github.com/discussions/" ++ toString s0.nextId,
          title := titleFor d, body := buildDailyDiscussionBody d stats,
          comments := [⟨s0.nextId + 1,
              build_list_comment_body "HIGH" d itemsH⟩,
            ⟨s0.nextId + 2, build_list_comment_body "TREND" d itemsT⟩] } ::
        (s0.discussions.map (fun (disc : Discussion) =>
          if disc.id = s0.nextId then
            { disc with comments := disc.comments ++
                [⟨s0.nextId + 1, build_list_comment_body "HIGH" d itemsH⟩] }
          else disc)).map (fun (disc : Discussion) =>
          if disc.id = s0.nextId then
            { disc with comments := disc.comments ++
                [⟨s0.nextId + 2, build_list_comment_body "TREND" d itemsT⟩] }
          else disc),
        s0.nextId + 3⟩ d stats
      = some (⟨s0.nextId, s0.nextId,
          "https://github.com/discussions/" ++ toString s0.nextId⟩,
        ⟨{ id := s0.nextId, number := s0.nextId,
            url := "https://github.com/discussions/" ++ toString s0.nextId,
            title := titleFor d, body := buildDailyDiscussionBody d stats,
            comments := [⟨s0.nextId + 1,
                build_list_comment_body "HIGH" d itemsH⟩,
              ⟨s0.nextId + 2, build_list_comment_body "TREND" d itemsT⟩] } ::
          (s0.discussions.map (fun (disc : Discussion) =>
            if disc.id = s0.nextId then
              { disc with comments := disc.comments ++
                  [⟨s0.nextId + 1, build_list_comment_body "HIGH" d itemsH⟩] }
            else disc)).map (fun (disc : Discussion) =>
            if disc.id = s0.nextId then
              { disc with comments := disc.comments ++
                  [⟨s0.nextId + 2, build_list_comment_body "TREND" d itemsT⟩] }
            else disc),
          s0.nextId + 3⟩) := by
    rw [ensure_found_head _ _ _ _ _ _ rfl]
  have hfc3 : find_comment_by_marker
      ⟨{ id := s0.nextId, number := s0.nextId,
          url := "https://github.com/discussions/" ++ toString s0.nextId,
          title := titleFor d, body := buildDailyDiscussionBody d stats,
          comments := [⟨s0.nextId + 1,
              build_list_comment_body "HIGH" d itemsH⟩,
            ⟨s0.nextId + 2, build_list_comment_body "TREND" d itemsT⟩] } ::
        (s0.discussions.map (fun (disc : Discussion) =>
          if disc.id = s0.nextId then
            { disc with comments := disc.comments ++
                [⟨s0.nextId + 1, build_list_comment_body "HIGH" d itemsH⟩] }
          else disc)).map (fun (disc : Discussion) =>
          if disc.id = s0.nextId then
            { disc with comments := disc.comments ++
                [⟨s0.nextId + 2, build_list_comment_body "TREND" d itemsT⟩] }
          else disc),
        s0.nextId + 3⟩
      s0.nextId (markerFor "HIGH" d)
      = some ⟨s0.nextId + 1, build_list_comment_body "HIGH" d itemsH⟩ := by
    rw [find_comment_head _ _ _ _ _ rfl]
    show List.find? _ [(⟨s0.nextId + 1,
        build_list_comment_body "HIGH" d itemsH⟩ : DComment),
      ⟨s0.nextId + 2, build_list_comment_body "TREND" d itemsT⟩] = _
    rw [List.find?_cons_of_pos _ (by exact marker_in_body _ _ _)]
  have hupd1 : upsert_list_comment
      ⟨{ id := s0.nextId, number := s0.nextId,
          url := "https://github.com/discussions/" ++ toString s0.nextId,
          title := titleFor d, body := buildDailyDiscussionBody d stats,
          comments := [⟨s0.nextId + 1,
              build_list_comment_body "HIGH" d itemsH⟩,
            ⟨s0.nextId + 2, build_list_comment_body "TREND" d itemsT⟩] } ::
        (s0.discussions.map (fun (disc : Discussion) =>
          if disc.id = s0.nextId then
            { disc with comments := disc.comments ++
                [⟨s0.nextId + 1, build_list_comment_body "HIGH" d itemsH⟩] }
          else disc)).map (fun (disc : Discussion) =>
          if disc.id = s0.nextId then
            { disc with comments := disc.comments ++
                [⟨s0.nextId + 2, build_list_comment_body "TREND" d itemsT⟩] }
          else disc),
        s0.nextId + 3⟩
      s0.nextId "HIGH" d itemsH
      = ⟨{ id := s0.nextId, number := s0.nextId,
            url := "https://github.com/discussions/" ++ toString s0.nextId,
            title := titleFor d, body := buildDailyDiscussionBody d stats,
            comments := [⟨s0.nextId + 1,
                build_list_comment_body "HIGH" d itemsH⟩,
              ⟨s0.nextId + 2, build_list_comment_body "TREND" d itemsT⟩] } ::
          ((s0.discussions.map (fun (disc : Discussion) =>
            if disc.id = s0.nextId then
              { disc with comments := disc.comments ++
                  [⟨s0.nextId + 1, build_list_comment_body "HIGH" d itemsH⟩] }
            else disc)).map (fun (disc : Discussion) =>
            if disc.id = s0.nextId then
              { disc with comments := disc.comments ++
                  [⟨s0.nextId + 2, build_list_comment_body "TREND" d itemsT⟩] }
            else disc)).map (fun (disc : Discussion) =>
            { disc with comments := disc.comments.map (fun (c : DComment) =>
                if c.id = s0.nextId + 1 then
                  { c with body := build_list_comment_body "HIGH" d itemsH }
                else c) }),
          s0.nextId + 3⟩ := by
    rw [upsert_updates _ _ _ _ _ _ hfc3]
    unfold update_discussion_comment
    simp [h21]
  have hfc4 : find_comment_by_marker
      ⟨{ id := s0.nextId, number := s0.nextId,
          url := "https://github.com/discussions/" ++ toString s0.nextId,
          title := titleFor d, body := buildDailyDiscussionBody d stats,
          comments := [⟨s0.nextId + 1,
              build_list_comment_body "HIGH" d itemsH⟩,
            ⟨s0.nextId + 2, build_list_comment_body "TREND" d itemsT⟩] } ::
        ((s0.discussions.map (fun (disc : Discussion) =>
          if disc.id = s0.nextId then
            { disc with comments := disc.comments ++
                [⟨s0.nextId + 1, build_list_comment_body "HIGH" d itemsH⟩] }
          else disc)).map (fun (disc : Discussion) =>
          if disc.id = s0.nextId then
            { disc with comments := disc.comments ++
                [⟨s0.nextId + 2, build_list_comment_body "TREND" d itemsT⟩] }
          else disc)).map (fun (disc : Discussion) =>
          { disc with comments := disc.comments.map (fun (c : DComment) =>
              if c.id = s0.nextId + 1 then
                { c with body := build_list_comment_body "HIGH" d itemsH }
              else c) }),
        s0.nextId + 3⟩
      s0.nextId (markerFor "TREND" d)
      = some ⟨s0.nextId + 2, build_list_comment_body "TREND" d itemsT⟩ := by
    rw [find_comment_head _ _ _ _ _ rfl]
    show List.find? _ [(⟨s0.nextId + 1,
        build_list_comment_body "HIGH" d itemsH⟩ : DComment),
      ⟨s0.nextId + 2, build_list_comment_body "TREND" d itemsT⟩] = _
    rw [List.find?_cons_of_neg _ (by simp [hH]),
      List.find?_cons_of_pos _ (by exact marker_in_body _ _ _)]
  have hupd2 : upsert_list_comment
      ⟨{ id := s0.nextId, number := s0.nextId,
          url := "https://github.com/discussions/" ++ toString s0.nextId,
          title := titleFor d, body := buildDailyDiscussionBody d stats,
          comments := [⟨s0.nextId + 1,
              build_list_comment_body "HIGH" d itemsH⟩,
            ⟨s0.nextId + 2, build_list_comment_body "TREND" d itemsT⟩] } ::
        ((s0.discussions.map (fun (disc : Discussion) =>
          if disc.id = s0.nextId then
            { disc with comments := disc.comments ++
                [⟨s0.nextId + 1, build_list_comment_body "HIGH" d itemsH⟩] }
          else disc)).map (fun (disc : Discussion) =>
          if disc.id = s0.nextId then
            { disc with comments := disc.comments ++
                [⟨s0.nextId + 2, build_list_comment_body "TREND" d itemsT⟩] }
          else disc)).map (fun (disc : Discussion) =>
          { disc with comments := disc.comments.map (fun (c : DComment) =>
              if c.id = s0.nextId + 1 then
                { c with body := build_list_comment_body "HIGH" d itemsH }
              else c) }),
        s0.nextId + 3⟩
      s0.nextId "TREND" d itemsT
      = ⟨{ id := s0.nextId, number := s0.nextId,
            url := "https://github.com/discussions/" ++ toString s0.nextId,
            title := titleFor d, body := buildDailyDiscussionBody d stats,
            comments := [⟨s0.nextId + 1,
                build_list_comment_body "HIGH" d itemsH⟩,
              ⟨s0.nextId + 2, build_list_comment_body "TREND" d itemsT⟩] } ::
          (((s0.discussions.map (fun (disc : Discussion) =>
            if disc.id = s0.nextId then
              { disc with comments := disc.comments ++
                  [⟨s0.nextId + 1, build_list_comment_body "HIGH" d itemsH⟩] }
            else disc)).map (fun (disc : Discussion) =>
            if disc.id = s0.nextId then
              { disc with comments := disc.comments ++
                  [⟨s0.nextId + 2, build_list_comment_body "TREND" d itemsT⟩] }
            else disc)).map (fun (disc : Discussion) =>
            { disc with comments := disc.comments.map (fun (c : DComment) =>
                if c.id = s0.nextId + 1 then
                  { c with body := build_list_comment_body "HIGH" d itemsH }
                else c) })).map (fun (disc : Discussion) =>
            { disc with comments := disc.comments.map (fun (c : DComment) =>
                if c.id = s0.nextId + 2 then
                  { c with body := build_list_comment_body "TREND" d itemsT }
                else c) }),
          s0.nextId + 3⟩ := by
    rw [upsert_updates _ _ _ _ _ _ hfc4]
    unfold update_discussion_comment
    simp [h12]
  have hrun2 : runReconcile category_id d stats itemsH itemsT
      ⟨{ id := s0.nextId, number := s0.nextId,
          url := "https://github.com/discussions/" ++ toString s0.nextId,
          title := titleFor d, body := buildDailyDiscussionBody d stats,
          comments := [⟨s0.nextId + 1,
              build_list_comment_body "HIGH" d itemsH⟩,
            ⟨s0.nextId + 2, build_list_comment_body "TREND" d itemsT⟩] } ::
        (s0.discussions.map (fun (disc : Discussion) =>
          if disc.id = s0.nextId then
            { disc with comments := disc.comments ++
                [⟨s0.nextId + 1, build_list_comment_body "HIGH" d itemsH⟩] }
          else disc)).map (fun (disc : Discussion) =>
          if disc.id = s0.nextId then
            { disc with comments := disc.comments ++
                [⟨s0.nextId + 2, build_list_comment_body "TREND" d itemsT⟩] }
          else disc),
        s0.nextId + 3⟩
      = some ⟨
        { id := s0.nextId, number := s0.nextId,
            url := "https://github.com/discussions/" ++ toString s0.nextId,
            title := titleFor d, body := buildDailyDiscussionBody d stats,
            comments := [⟨s0.nextId + 1,
                build_list_comment_body "HIGH" d itemsH⟩,
              ⟨s0.nextId + 2, build_list_comment_body "TREND" d itemsT⟩] } ::
          (((s0.discussions.map (fun (disc : Discussion) =>
            if disc.id = s0.nextId then
              { disc with comments := disc.comments ++
                  [⟨s0.nextId + 1, build_list_comment_body "HIGH" d itemsH⟩] }
            else disc)).map (fun (disc : Discussion) =>
            if disc.id = s0.nextId then
              { disc with comments := disc.comments ++
                  [⟨s0.nextId + 2, build_list_comment_body "TREND" d itemsT⟩] }
            else disc)).map (fun (disc : Discussion) =>
            { disc with comments := disc.comments.map (fun (c : DComment) =>
                if c.id = s0.nextId + 1 then
                  { c with body := build_list_comment_body "HIGH" d itemsH }
                else c) })).map (fun (disc : Discussion) =>
            { disc with comments := disc.comments.map (fun (c : DComment) =>
                if c.id = s0.nextId + 2 then
                  { c with body := build_list_comment_body "TREND" d itemsT }
                else c) }),
          s0.nextId + 3⟩ := by
    unfold runReconcile
    rw [hens2]
    dsimp only
    rw [hupd1, hupd2]
  have tpA : ∀ x : Discussion, ((fun (disc : Discussion) =>
      if disc.id = s0.nextId then
        { disc with comments := disc.comments ++
            [(⟨s0.nextId + 1, build_list_comment_body "HIGH" d itemsH⟩ :
              DComment)] }
      else disc) x).title = x.title := by
    intro x
    by_cases h : x.id = s0.nextId <;> simp [h]
  have tpB : ∀ x : Discussion, ((fun (disc : Discussion) =>
      if disc.id = s0.nextId then
        { disc with comments := disc.comments ++
            [(⟨s0.nextId + 2, build_list_comment_body "TREND" d itemsT⟩ :
              DComment)] }
      else disc) x).title = x.title := by
    intro x
    by_cases h : x.id = s0.nextId <;> simp [h]
  have tpC : ∀ x : Discussion, ((fun (disc : Discussion) =>
      { disc with comments := disc.comments.map (fun (c : DComment) =>
          if c.id = s0.nextId + 1 then
            { c with body := build_list_comment_body "HIGH" d itemsH }
          else c) }) x).title = x.title := fun _ => rfl
  have tpD : ∀ x : Discussion, ((fun (disc : Discussion) =>
      { disc with comments := disc.comments.map (fun (c : DComment) =>
          if c.id = s0.nextId + 2 then
            { c with body := build_list_comment_body "TREND" d itemsT }
          else c) }) x).title = x.title := fun _ => rfl
  have hne1 := titles_ne_map tpB (titles_ne_map tpA h0)
  have hne2 := titles_ne_map tpD (titles_ne_map tpC hne1)
  refine ⟨_, _, hrun1, hrun2, rfl, ?_, ?_, ?_⟩
  · rw [List.countP_cons_of_pos _ _ (by simp),
      List.countP_eq_zero.mpr (fun a ha => by simpa using hne1 a ha)]
  · rw [List.countP_cons_of_pos _ _ (by simp),
      List.countP_eq_zero.mpr (fun a ha => by simpa using hne2 a ha)]
  · intro disc hd hTd
    rcases List.mem_cons.mp hd with rfl | hd'
    · refine ⟨rfl, ?_, ?_⟩
      · rw [List.countP_cons_of_pos _ _ (by exact marker_in_body _ _ _),
          List.countP_cons_of_neg _ _ (by simp [hT])]
        simp
      · rw [List.countP_cons_of_neg _ _ (by simp [hH]),
          List.countP_cons_of_pos _ _ (by exact marker_in_body _ _ _)]
        simp
    · exact absurd hTd (hne2 disc hd')

/-- Witness for C3 (amended) at a concrete input: non-empty category id,
empty starting state, empty item lists. -/
theorem C3_witness :
    (("C" : String) ≠ "" ∧
      (∀ disc ∈ (⟨[], 0⟩ : RemoteState).discussions,
        disc.title ≠ titleFor "2024-01-15") ∧
      containsSub (markerFor "TREND" "2024-01-15")
        (build_list_comment_body "HIGH" "2024-01-15" []) = false ∧
      containsSub (markerFor "HIGH" "2024-01-15")
        (build_list_comment_body "TREND" "2024-01-15" []) = false) ∧
    (∃ s1 s2 : RemoteState,
      runReconcile "C" "2024-01-15" ⟨0, 0, 0, []⟩ [] [] ⟨[], 0⟩ = some s1 ∧
      runReconcile "C" "2024-01-15" ⟨0, 0, 0, []⟩ [] [] s1 = some s2 ∧
      s2.nextId = s1.nextId ∧
      s1.discussions.countP
        (fun disc => disc.title = titleFor "2024-01-15") = 1 ∧
      s2.discussions.countP
        (fun disc => disc.title = titleFor "2024-01-15") = 1 ∧
      ∀ disc ∈ s2.discussions, disc.title = titleFor "2024-01-15" →
        disc.comments.map DComment.id = [0 + 1, 0 + 2] ∧
        disc.comments.countP
          (fun c => containsSub (markerFor "HIGH" "2024-01-15") c.body) ≤ 1 ∧
        disc.comments.countP
          (fun c => containsSub
            (markerFor "TREND" "2024-01-15") c.body) ≤ 1) :=
  ⟨⟨by decide, by simp, by decide, by decide⟩,
    C3_reconciler_idempotent "C" "2024-01-15" ⟨0, 0, 0, []⟩ [] [] ⟨[], 0⟩
      (by decide) (by simp) (by decide) (by decide)⟩

end EIC

